import Mathlib

/-!
Verification of the core runtime substrate of the qdrant-api-mcp server:
cluster registry (src/lib/cluster-manager.ts), sliding-window rate limiter
(dist/lib/rate-limiter.js), and the resumable cursor codec plus the
paginated-scroll tool handler (mcp-server entry file).

The host-library collaborators the code calls are modelled as pure Lean
functions at the granularity the repository uses them:

* JSON.stringify / JSON.parse are modelled over a `Json` value type whose
  numbers are integers (the cursor payloads carry only integral numbers;
  floating point is out of scope) and whose textual form carries no
  whitespace (JSON.stringify with no indent argument emits none).
* Buffer base64 and utf8 encoding are modelled byte-exactly, with the
  decoder ignoring characters outside the base64 alphabet, as Node does.
* createHash("sha256") is implemented concretely (FIPS 180-4 over bytes).
* The WHATWG URL parser is external: functions that receive a URL string in
  the source receive the already-parsed component record here, and the
  normalization logic of cluster-manager.ts is translated over it.
-/

set_option maxRecDepth 10000

namespace Qmcp

/-- A JSON value as the codec manipulates it: the image of JS values under
JSON.stringify, with numbers restricted to integers. -/
inductive Json where
  | null : Json
  | bool (b : Bool) : Json
  | num (n : Int) : Json
  | str (s : String) : Json
  | arr (items : List Json) : Json
  | obj (fields : List (String × Json)) : Json
deriving Repr

/-- Decimal digit character for a value below ten. -/
def decDigit (d : Nat) : Char := Char.ofNat (48 + d)

/-- Lowercase hexadecimal digit character for a value below sixteen. -/
def hexDigit (d : Nat) : Char := if d < 10 then decDigit d else Char.ofNat (87 + d)

/-- Decimal digit characters, most significant first (structural on fuel, so
that concrete values reduce; the fuel argument of `natChars` always suffices). -/
def natCharsAux : Nat → Nat → List Char
  | 0, _ => []
  | fuel + 1, n =>
    if n < 10 then [decDigit n]
    else natCharsAux fuel (n / 10) ++ [decDigit (n % 10)]

/-- Decimal digit characters of a natural number, most significant first. -/
def natChars (n : Nat) : List Char := natCharsAux (n + 1) n

/-- Decimal rendering of an integer, as String(n) produces it. -/
def intChars (i : Int) : List Char :=
  if i < 0 then '-' :: natChars i.natAbs else natChars i.natAbs

/-- One character of a JS string, escaped as JSON.stringify escapes it. -/
def escChar (c : Char) : List Char :=
  if c = '"' then ['\\', '"']
  else if c = '\\' then ['\\', '\\']
  else if c = Char.ofNat 8 then ['\\', 'b']
  else if c = Char.ofNat 9 then ['\\', 't']
  else if c = Char.ofNat 10 then ['\\', 'n']
  else if c = Char.ofNat 12 then ['\\', 'f']
  else if c = Char.ofNat 13 then ['\\', 'r']
  else if c.toNat < 32 then ['\\', 'u', '0', '0', hexDigit (c.toNat / 16), hexDigit (c.toNat % 16)]
  else [c]

/-- A JSON string literal: quote, escaped body, quote. -/
def quoteChars (s : String) : List Char :=
  '"' :: (s.data.flatMap escChar ++ ['"'])

mutual

/-- JSON.stringify (no indent argument): the serialized characters of a value. -/
def jsonChars : Json → List Char
  | .null => ['n', 'u', 'l', 'l']
  | .bool false => ['f', 'a', 'l', 's', 'e']
  | .bool true => ['t', 'r', 'u', 'e']
  | .num n => intChars n
  | .str s => quoteChars s
  | .arr items => '[' :: (arrChars items ++ [']'])
  | .obj fields => '{' :: (objChars fields ++ ['}'])

/-- Comma-separated serialized array elements. -/
def arrChars : List Json → List Char
  | [] => []
  | [x] => jsonChars x
  | x :: y :: rest => jsonChars x ++ ',' :: arrChars (y :: rest)

/-- Comma-separated serialized object members, keys in insertion order. -/
def objChars : List (String × Json) → List Char
  | [] => []
  | [(k, v)] => quoteChars k ++ ':' :: jsonChars v
  | (k, v) :: f :: rest => quoteChars k ++ ':' :: (jsonChars v ++ ',' :: objChars (f :: rest))

end

/-- JSON.stringify as a String-valued function. -/
def Json.stringify (j : Json) : String := String.mk (jsonChars j)

/-- Decimal digit test. -/
def isDig (c : Char) : Bool := 48 ≤ c.toNat && c.toNat ≤ 57

/-- Value of one hexadecimal digit character. -/
def nibbleVal (c : Char) : Option Nat :=
  if 48 ≤ c.toNat ∧ c.toNat ≤ 57 then some (c.toNat - 48)
  else if 97 ≤ c.toNat ∧ c.toNat ≤ 102 then some (c.toNat - 87)
  else if 65 ≤ c.toNat ∧ c.toNat ≤ 70 then some (c.toNat - 55)
  else none

/-- Split a leading run of decimal digits off the input. -/
def readDigits : List Char → List Char × List Char
  | [] => ([], [])
  | c :: rest =>
    if isDig c then
      let p := readDigits rest
      (c :: p.1, p.2)
    else ([], c :: rest)

/-- The natural number the digit characters denote. -/
def charsNat (ds : List Char) : Nat :=
  ds.foldl (fun a c => a * 10 + (c.toNat - 48)) 0

/-- Read a nonempty digit run as a natural number. -/
def readNat (cs : List Char) : Option (Nat × List Char) :=
  match readDigits cs with
  | ([], _) => none
  | (ds, rest) => some (charsNat ds, rest)

/-- Read a JSON integer (optional minus sign, then digits). -/
def readNum (cs : List Char) : Option (Json × List Char) :=
  match cs with
  | '-' :: rest => (readNat rest).map (fun p => (Json.num (-(p.1 : Int)), p.2))
  | _ => (readNat cs).map (fun p => (Json.num (p.1 : Int), p.2))

/-- Inverse of a single-character escape. -/
def unesc (c : Char) : Option Char :=
  if c = '"' then some '"'
  else if c = '\\' then some '\\'
  else if c = '/' then some '/'
  else if c = 'b' then some (Char.ofNat 8)
  else if c = 'f' then some (Char.ofNat 12)
  else if c = 'n' then some (Char.ofNat 10)
  else if c = 'r' then some (Char.ofNat 13)
  else if c = 't' then some (Char.ofNat 9)
  else none

/-- Read a JSON string body after the opening quote, undoing escapes. -/
def readStr : List Char → Option (List Char × List Char)
  | [] => none
  | c :: rest =>
    if c = '"' then some ([], rest)
    else if c = '\\' then
      match rest with
      | [] => none
      | e :: rest2 =>
        if e = 'u' then
          match rest2 with
          | h1 :: h2 :: h3 :: h4 :: rest3 =>
            match nibbleVal h1, nibbleVal h2, nibbleVal h3, nibbleVal h4 with
            | some a, some b, some c3, some d =>
              (readStr rest3).map
                (fun p => (Char.ofNat (((a * 16 + b) * 16 + c3) * 16 + d) :: p.1, p.2))
            | _, _, _, _ => none
          | _ => none
        else
          match unesc e with
          | some ch => (readStr rest2).map (fun p => (ch :: p.1, p.2))
          | none => none
    else (readStr rest).map (fun p => (c :: p.1, p.2))

mutual

/-- Read one JSON value (fuel-based recursion; fuel exhaustion reads nothing). -/
def readVal : Nat → List Char → Option (Json × List Char)
  | 0, _ => none
  | fuel + 1, cs =>
    match cs with
    | 'n' :: 'u' :: 'l' :: 'l' :: rest => some (.null, rest)
    | 't' :: 'r' :: 'u' :: 'e' :: rest => some (.bool true, rest)
    | 'f' :: 'a' :: 'l' :: 's' :: 'e' :: rest => some (.bool false, rest)
    | '"' :: rest => (readStr rest).map (fun p => (Json.str (String.mk p.1), p.2))
    | '[' :: rest =>
      match rest with
      | ']' :: rest2 => some (.arr [], rest2)
      | _ => (readItems fuel rest).map (fun p => (Json.arr p.1, p.2))
    | '{' :: rest =>
      match rest with
      | '}' :: rest2 => some (.obj [], rest2)
      | _ => (readFields fuel rest).map (fun p => (Json.obj p.1, p.2))
    | c :: _ => if c = '-' ∨ isDig c then readNum cs else none
    | [] => none

/-- Read one or more comma-separated array elements up to the closing bracket. -/
def readItems : Nat → List Char → Option (List Json × List Char)
  | 0, _ => none
  | fuel + 1, cs =>
    match readVal fuel cs with
    | none => none
    | some (v, rest) =>
      match rest with
      | ',' :: rest2 => (readItems fuel rest2).map (fun p => (v :: p.1, p.2))
      | ']' :: rest2 => some ([v], rest2)
      | _ => none

/-- Read one or more comma-separated object members up to the closing brace. -/
def readFields : Nat → List Char → Option (List (String × Json) × List Char)
  | 0, _ => none
  | fuel + 1, cs =>
    match cs with
    | '"' :: rest =>
      match readStr rest with
      | none => none
      | some (k, rest1) =>
        match rest1 with
        | ':' :: rest2 =>
          match readVal fuel rest2 with
          | none => none
          | some (v, rest3) =>
            match rest3 with
            | ',' :: rest4 => (readFields fuel rest4).map (fun p => ((String.mk k, v) :: p.1, p.2))
            | '}' :: rest4 => some ([(String.mk k, v)], rest4)
            | _ => none
        | _ => none
    | _ => none

end

/-- JSON.parse, modelled on whitespace-free input over the integer fragment:
a value is accepted only when it consumes the whole input. -/
def Json.parse (s : String) : Option Json :=
  match readVal (s.data.length + 1) s.data with
  | some (j, []) => some j
  | _ => none

/-! ### Base64 (model of Buffer base64 encoding and its forgiving decoder) -/

/-- The base64 alphabet character of a sextet value below 64. -/
def b64Char (n : Nat) : Char :=
  if n < 26 then Char.ofNat (65 + n)
  else if n < 52 then Char.ofNat (97 + (n - 26))
  else if n < 62 then Char.ofNat (48 + (n - 52))
  else if n = 62 then '+' else '/'

/-- The sextet value of a base64 alphabet character, none outside the alphabet. -/
def b64Val (c : Char) : Option Nat :=
  if 65 ≤ c.toNat ∧ c.toNat ≤ 90 then some (c.toNat - 65)
  else if 97 ≤ c.toNat ∧ c.toNat ≤ 122 then some (c.toNat - 71)
  else if 48 ≤ c.toNat ∧ c.toNat ≤ 57 then some (c.toNat + 4)
  else if c = '+' then some 62
  else if c = '/' then some 63
  else none

/-- Base64 characters of a byte list, with padding, as Buffer toString("base64"). -/
def b64EncBytes : List Nat → List Char
  | [] => []
  | [a] => [b64Char (a / 4), b64Char (a % 4 * 16), '=', '=']
  | [a, b] => [b64Char (a / 4), b64Char (a % 4 * 16 + b / 16), b64Char (b % 16 * 4), '=']
  | a :: b :: c :: rest =>
    b64Char (a / 4) :: b64Char (a % 4 * 16 + b / 16) :: b64Char (b % 16 * 4 + c / 64) ::
      b64Char (c % 64) :: b64EncBytes rest

/-- Pack a sextet sequence into bytes; an incomplete final group yields only
its complete bytes (leftover bits dropped). -/
def b64Sextets : List Nat → List Nat
  | a :: b :: c :: d :: rest =>
    (a * 4 + b / 16) :: (b % 16 * 16 + c / 4) :: (c % 4 * 64 + d) :: b64Sextets rest
  | [a, b] => [a * 4 + b / 16]
  | [a, b, c] => [a * 4 + b / 16, b % 16 * 16 + c / 4]
  | _ => []

/-- Buffer.from(s, "base64"): characters outside the alphabet (padding,
whitespace, garbage) are ignored, then sextets are packed into bytes. -/
def b64Decode (s : String) : List Nat := b64Sextets (s.data.filterMap b64Val)

/-- Buffer.toString("base64") over a byte list. -/
def b64Encode (bytes : List Nat) : String := String.mk (b64EncBytes bytes)

/-! ### UTF-8 (model of Buffer utf8 encoding/decoding) -/

/-- UTF-8 bytes of one code point. -/
def utf8Char (n : Nat) : List Nat :=
  if n < 128 then [n]
  else if n < 2048 then [192 + n / 64, 128 + n % 64]
  else if n < 65536 then [224 + n / 4096, 128 + n / 64 % 64, 128 + n % 64]
  else [240 + n / 262144, 128 + n / 4096 % 64, 128 + n / 64 % 64, 128 + n % 64]

/-- UTF-8 bytes of a string, as Buffer.from(s, "utf8"). -/
def utf8Encode (s : String) : List Nat := s.data.flatMap (fun c => utf8Char c.toNat)

/-- A UTF-8 continuation byte. -/
def isCont (b : Nat) : Bool := 128 ≤ b && b < 192

/-- The replacement character emitted for malformed byte sequences. -/
def repl : Char := Char.ofNat 65533

/-- A code point a 2/3/4-byte sequence may validly carry (no overlongs, no
surrogates, within the Unicode range); outside it the decoder emits the
replacement character, as Buffer.toString("utf8") does. -/
def validCp (lo n : Nat) : Bool :=
  lo ≤ n && (n < 55296 || (57344 ≤ n && n < 1114112))

/-- Decode UTF-8 bytes to characters; malformed sequences become replacement
characters, modelling Buffer.toString("utf8"). Fuel-driven (structural on the
first argument) so that concrete inputs reduce; one unit per emitted character
suffices, and `utf8Decode` below supplies the byte count. -/
def utf8DecodeAux : Nat → List Nat → List Char
  | 0, _ => []
  | _, [] => []
  | fuel + 1, b :: rest =>
    if b < 128 then Char.ofNat b :: utf8DecodeAux fuel rest
    else if 192 ≤ b ∧ b < 224 then
      match rest with
      | b2 :: rest2 =>
        if isCont b2 then
          let n := (b - 192) * 64 + (b2 - 128)
          (if validCp 128 n then Char.ofNat n else repl) :: utf8DecodeAux fuel rest2
        else repl :: utf8DecodeAux fuel (b2 :: rest2)
      | [] => [repl]
    else if 224 ≤ b ∧ b < 240 then
      match rest with
      | b2 :: b3 :: rest3 =>
        if isCont b2 && isCont b3 then
          let n := (b - 224) * 4096 + (b2 - 128) * 64 + (b3 - 128)
          (if validCp 2048 n then Char.ofNat n else repl) :: utf8DecodeAux fuel rest3
        else repl :: utf8DecodeAux fuel rest
      | _ => repl :: utf8DecodeAux fuel rest
    else if 240 ≤ b ∧ b < 248 then
      match rest with
      | b2 :: b3 :: b4 :: rest4 =>
        if isCont b2 && isCont b3 && isCont b4 then
          let n := (b - 240) * 262144 + (b2 - 128) * 4096 + (b3 - 128) * 64 + (b4 - 128)
          (if validCp 65536 n then Char.ofNat n else repl) :: utf8DecodeAux fuel rest4
        else repl :: utf8DecodeAux fuel rest
      | _ => repl :: utf8DecodeAux fuel rest
    else repl :: utf8DecodeAux fuel rest

/-- Decode UTF-8 bytes to characters (replacement characters for malformed
sequences), modelling Buffer.toString("utf8"). -/
def utf8Decode (bytes : List Nat) : List Char := utf8DecodeAux bytes.length bytes

/-- Buffer.toString("utf8") over a byte list. -/
def bytesToString (bytes : List Nat) : String := String.mk (utf8Decode bytes)

/-! ### SHA-256 (createHash("sha256"), FIPS 180-4, over bytes) -/

/-- Truncation to a 32-bit word. -/
def w32 (n : Nat) : Nat := n % 4294967296

/-- Right rotation of a 32-bit word by n bits. -/
def rotr32 (n x : Nat) : Nat := w32 (x / 2 ^ n + x % 2 ^ n * 2 ^ (32 - n))

/-- The 64 SHA-256 round constants. -/
def shaK : List Nat :=
  [1116352408, 1899447441, 3049323471, 3921009573, 961987163, 1508970993, 2453635748,
   2870763221, 3624381080, 310598401, 607225278, 1426881987, 1925078388, 2162078206,
   2614888103, 3248222580, 3835390401, 4022224774, 264347078, 604807628, 770255983,
   1249150122, 1555081692, 1996064986, 2554220882, 2821834349, 2952996808, 3210313671,
   3336571891, 3584528711, 113926993, 338241895, 666307205, 773529912, 1294757372,
   1396182291, 1695183700, 1986661051, 2177026350, 2456956037, 2730485921, 2820302411,
   3259730800, 3345764771, 3516065817, 3600352804, 4094571909, 275423344, 430227734,
   506948616, 659060556, 883997877, 958139571, 1322822218, 1537002063, 1747873779,
   1955562222, 2024104815, 2227730452, 2361852424, 2428436474, 2756734187, 3204031479,
   3329325298]

/-- The initial SHA-256 hash state. -/
def shaH0 : List Nat :=
  [1779033703, 3144134277, 1013904242, 2773480762, 1359893119, 2600822924, 528734635,
   1541459225]

/-- Big-endian 8-byte encoding of a length in bits. -/
def be64 (n : Nat) : List Nat :=
  [n / 72057594037927936 % 256, n / 281474976710656 % 256, n / 1099511627776 % 256,
   n / 4294967296 % 256, n / 16777216 % 256, n / 65536 % 256, n / 256 % 256, n % 256]

/-- SHA-256 message padding: 0x80, zeros to 56 mod 64, then the bit length. -/
def shaPad (msg : List Nat) : List Nat :=
  msg ++ 128 :: List.replicate ((119 - msg.length % 64) % 64) 0 ++ be64 (8 * msg.length)

/-- Big-endian packing of bytes into 32-bit words. -/
def bytesToWords : List Nat → List Nat
  | a :: b :: c :: d :: rest => (((a * 256 + b) * 256 + c) * 256 + d) :: bytesToWords rest
  | _ => []

/-- The two small sigma functions of the message schedule. -/
def smallSigma0 (x : Nat) : Nat := rotr32 7 x ^^^ rotr32 18 x ^^^ x / 8

/-- See smallSigma0. -/
def smallSigma1 (x : Nat) : Nat := rotr32 17 x ^^^ rotr32 19 x ^^^ x / 1024

/-- Extend the 16 message-schedule words by the given number of extra words. -/
def shaExtend : Nat → List Nat → List Nat
  | 0, ws => ws
  | fuel + 1, ws =>
    shaExtend fuel (ws ++ [w32 (smallSigma1 (ws.getD (ws.length - 2) 0)
      + ws.getD (ws.length - 7) 0 + smallSigma0 (ws.getD (ws.length - 15) 0)
      + ws.getD (ws.length - 16) 0)])

/-- The two big sigma functions of the compression rounds. -/
def bigSigma0 (x : Nat) : Nat := rotr32 2 x ^^^ rotr32 13 x ^^^ rotr32 22 x

/-- See bigSigma0. -/
def bigSigma1 (x : Nat) : Nat := rotr32 6 x ^^^ rotr32 11 x ^^^ rotr32 25 x

/-- The Ch function: 32-bit complement of x is 4294967295 - x. -/
def chNat (x y z : Nat) : Nat := (x &&& y) ^^^ ((4294967295 - x) &&& z)

/-- The Maj function. -/
def majNat (x y z : Nat) : Nat := (x &&& y) ^^^ (x &&& z) ^^^ (y &&& z)

/-- One compression round on the 8-word state, for one constant/schedule pair. -/
def shaRound (st : List Nat) (kw : Nat × Nat) : List Nat :=
  match st with
  | [a, b, c, d, e, f, g, h] =>
    let t1 := w32 (h + bigSigma1 e + chNat e f g + kw.1 + kw.2)
    let t2 := w32 (bigSigma0 a + majNat a b c)
    [w32 (t1 + t2), a, b, c, w32 (d + t1), e, f, g]
  | other => other

/-- Process one 64-byte block into the running hash state. -/
def shaBlock (h : List Nat) (block : List Nat) : List Nat :=
  let ws := shaExtend 48 (bytesToWords block)
  let st := (shaK.zip ws).foldl shaRound h
  (h.zip st).map (fun p => w32 (p.1 + p.2))

/-- Split into 64-byte chunks (fuel-driven so concrete inputs reduce). -/
def chunksAux : Nat → List Nat → List (List Nat)
  | 0, _ => []
  | _, [] => []
  | fuel + 1, bytes => bytes.take 64 :: chunksAux fuel (bytes.drop 64)

/-- SHA-256 digest (32 bytes) of a byte message. -/
def sha256 (msg : List Nat) : List Nat :=
  let padded := shaPad msg
  let hh := (chunksAux padded.length padded).foldl shaBlock shaH0
  hh.flatMap (fun wv => [wv / 16777216 % 256, wv / 65536 % 256, wv / 256 % 256, wv % 256])

/-- Lowercase hex characters of a byte list (digest "hex"). -/
def hexChars (bytes : List Nat) : List Char :=
  bytes.flatMap (fun b => [hexDigit (b / 16), hexDigit (b % 16)])

/-- createHash("sha256").update(s).digest("hex") for a string (utf8 bytes). -/
def sha256Hex (s : String) : String := String.mk (hexChars (sha256 (utf8Encode s)))

/-! ### Cluster manager (src/lib/cluster-manager.ts)

JS Maps keyed by profile name are modelled as insertion-ordered lists; the
constructor and registerDynamicCluster only ever insert unseen names, so
list find? coincides with Map.get. All state mutation is explicit passing. -/

/-- The environment configuration record (src/config/env.ts shape). -/
structure EnvConfig where
  QDRANT_URL : String
  QDRANT_API_KEY : String
  HOST : String
  PORT : Nat
deriving Repr, DecidableEq

/-- A named cluster connection profile. Optional TS fields are Option. -/
structure ClusterProfile where
  name : String
  url : String
  apiKey : Option String := none
  description : Option String := none
  readOnly : Option Bool := none
  labels : Option (List String) := none
deriving Repr, DecidableEq

/-- A backend HTTP client: external collaborator, consumed only through its
construction contract (the configuration it is bound to). -/
structure QdrantClient where
  config : EnvConfig
deriving Repr, DecidableEq

/-- A cache entry pairing a profile with its lazily constructed client. -/
structure ClusterClientEntry where
  profile : ClusterProfile
  client : QdrantClient
deriving Repr, DecidableEq

/-- The ClusterManager state. -/
structure ClusterManager where
  profiles : List ClusterProfile
  clients : List (String × ClusterClientEntry)
  activeCluster : String
  baseConfig : EnvConfig
deriving Repr

/-- De-duplicate by name, first occurrence wins (the seen-set filter). -/
def dedupByName (seen : List String) : List ClusterProfile → List ClusterProfile
  | [] => []
  | p :: rest =>
    if seen.contains p.name then dedupByName seen rest
    else p :: dedupByName (p.name :: seen) rest

/-- normalizeProfiles: drop candidates missing a name or url, fill absent
optional fields with defaults, de-duplicate by name (first wins). -/
def normalizeProfiles (profiles : List ClusterProfile) : List ClusterProfile :=
  dedupByName []
    ((profiles.filter (fun p => !(p.name == "") && !(p.url == ""))).map
      (fun p =>
        { p with
          apiKey := some (p.apiKey.getD "")
          description := some (p.description.getD "")
          readOnly := some (p.readOnly.getD false)
          labels := some (p.labels.getD []) }))

/-- The reserved fallback profile name. -/
def baseFallbackName : String := "default"

/-- The fallback profile synthesized from the base configuration. -/
def createFallbackProfile (baseConfig : EnvConfig) : ClusterProfile :=
  { name := baseFallbackName
    url := baseConfig.QDRANT_URL
    apiKey := some baseConfig.QDRANT_API_KEY
    description := some "Fallback cluster derived from QDRANT_URL" }

/-- The ClusterManager constructor. -/
def mkClusterManager (baseConfig : EnvConfig) (profiles : List ClusterProfile)
    (defaultCluster : Option String) : ClusterManager :=
  let sanitized0 := normalizeProfiles profiles
  let sanitized :=
    if sanitized0.isEmpty then [createFallbackProfile baseConfig]
    else if sanitized0.any (fun p => p.name == baseFallbackName) then sanitized0
    else sanitized0 ++ [createFallbackProfile baseConfig]
  let requested := defaultCluster.getD baseFallbackName
  let active :=
    if sanitized.any (fun p => p.name == requested) then requested
    else (sanitized.headD (createFallbackProfile baseConfig)).name
  { profiles := sanitized, clients := [], activeCluster := active, baseConfig := baseConfig }

/-- Map.get on the profile map. -/
def findProfile (profiles : List ClusterProfile) (name : String) : Option ClusterProfile :=
  profiles.find? (fun p => p.name == name)

/-- Array.from(keys()).join(", "). -/
def joinComma : List String → String
  | [] => ""
  | [s] => s
  | s :: t :: rest => s ++ ", " ++ joinComma (t :: rest)

/-- The UnknownCluster error message (quote characters elided). -/
def unknownClusterMsg (name : String) (available : List String) : String :=
  "Unknown cluster " ++ name ++ ". Available clusters: " ++ joinComma available

/-- getProfile(name?): resolve a name, or the active name when absent. -/
def getProfile (m : ClusterManager) (name : Option String) : Except String ClusterProfile :=
  let resolvedName := name.getD m.activeCluster
  match findProfile m.profiles resolvedName with
  | some p => .ok p
  | none => .error (unknownClusterMsg resolvedName (m.profiles.map (fun p => p.name)))

/-- getClient(name?): cached client, or construct-and-cache on first use. -/
def getClient (m : ClusterManager) (name : Option String) :
    Except String (ClusterManager × ClusterClientEntry) :=
  match getProfile m name with
  | .error e => .error e
  | .ok profile =>
    match m.clients.find? (fun pr => pr.1 == profile.name) with
    | some pr => .ok (m, pr.2)
    | none =>
      let client : QdrantClient :=
        ⟨{ QDRANT_URL := profile.url
           QDRANT_API_KEY := profile.apiKey.getD ""
           HOST := m.baseConfig.HOST
           PORT := m.baseConfig.PORT }⟩
      let entry : ClusterClientEntry := ⟨profile, client⟩
      .ok ({ m with clients := m.clients ++ [(profile.name, entry)] }, entry)

/-- setActiveCluster(name): resolve, then move the active pointer. -/
def setActiveCluster (m : ClusterManager) (name : String) :
    Except String (ClusterManager × ClusterProfile) :=
  match getProfile m (some name) with
  | .error e => .error e
  | .ok profile => .ok ({ m with activeCluster := profile.name }, profile)

/-- The component record of an already-parsed URL (the WHATWG URL object
fields normalizeUrl reads; parsing itself is the host library). -/
structure ParsedUrl where
  protocol : String
  hostname : String
  port : String
  pathname : String
  search : String
deriving Repr, DecidableEq

/-- normalizeUrl: lower-case host, strip the default port of the scheme,
strip one trailing slash from a non-root path, keep the query string.
String operations are spelled over the character lists (lower-casing, the
trailing-slash test, and slice(0, -1)) so that concrete URLs evaluate; on
the ASCII component strings the URL parser produces, they agree with the
JS string methods the source uses. -/
def normalizeUrl (u : ParsedUrl) : String :=
  let hostname := String.mk (u.hostname.data.map Char.toLower)
  let protocol := u.protocol
  let port :=
    if (protocol == "https:" && u.port == "443") || (protocol == "http:" && u.port == "80")
    then "" else u.port
  let normalized := protocol ++ "//" ++ hostname
  let normalized := if port ≠ "" then normalized ++ ":" ++ port else normalized
  let pathname :=
    if (u.pathname.data.getLast? == some '/') && decide (u.pathname.data.length > 1)
    then String.mk u.pathname.data.dropLast
    else u.pathname
  let normalized := normalized ++ pathname
  if u.search ≠ "" then normalized ++ u.search else normalized

/-- The synthetic name of a dynamically registered cluster: the literal tag
plus the first 12 hex digits of the SHA-256 of the normalized URL. -/
def dynClusterName (normalizedUrl : String) : String :=
  "dynamic-" ++ (sha256Hex normalizedUrl).take 12

/-- registerDynamicCluster, after URL-string validation and parsing (the
host URL parser is external; this receives its component record). -/
def registerDynamicCluster (m : ClusterManager) (parsedUrl : ParsedUrl)
    (apiKey : Option String) : ClusterManager × String :=
  let normalizedUrl := normalizeUrl parsedUrl
  let clusterName := dynClusterName normalizedUrl
  if m.profiles.any (fun p => p.name == clusterName) then (m, clusterName)
  else
    let profile : ClusterProfile :=
      { name := clusterName
        url := normalizedUrl
        apiKey := some (apiKey.getD "")
        description := some ("Dynamic cluster: " ++ normalizedUrl)
        labels := some ["dynamic"] }
    ({ m with profiles := m.profiles ++ [profile] }, clusterName)

/-- A profile as exposed by introspection surfaces: the apiKey field is
removed and replaced by the boolean hasApiKey. -/
structure SanitizedProfile where
  name : String
  url : String
  description : Option String
  readOnly : Option Bool
  labels : Option (List String)
  hasApiKey : Bool
deriving Repr, DecidableEq

/-- sanitizeProfile: strip the credential, expose Boolean(apiKey). -/
def sanitizeProfile (p : ClusterProfile) : SanitizedProfile :=
  { name := p.name
    url := p.url
    description := p.description
    readOnly := p.readOnly
    labels := p.labels
    hasApiKey := !(p.apiKey.getD "" == "") }

/-! ### Rate limiter (dist/lib/rate-limiter.js) -/

/-- The read-only configuration exposed by describe(). -/
structure RateLimitInfo where
  windowMs : Int
  maxRequests : Nat
deriving Repr, DecidableEq

/-- The sliding-window rate limiter state; timestamps are Date.now()
milliseconds, kept per key. -/
structure RateLimiter where
  windowMs : Int
  maxRequests : Nat
  buckets : List (String × List Int)
deriving Repr, DecidableEq

/-- describe(): the configured window and limit. -/
def RateLimiter.describe (rl : RateLimiter) : RateLimitInfo :=
  ⟨rl.windowMs, rl.maxRequests⟩

/-- Map.get with the empty-bucket default. -/
def bucketOf (rl : RateLimiter) (key : String) : List Int :=
  ((rl.buckets.find? (fun p => p.1 == key)).map (fun p => p.2)).getD []

/-- Map.set: replace in place, or append a new key. -/
def setAssoc (l : List (String × List Int)) (key : String) (v : List Int) :
    List (String × List Int) :=
  if l.any (fun p => p.1 == key) then
    l.map (fun p => if p.1 == key then (key, v) else p)
  else l ++ [(key, v)]

/-- The RateLimitExceeded message (quote characters elided). -/
def rateLimitMsg (key : String) (maxRequests : Nat) (windowMs : Int) : String :=
  "Rate limit exceeded for " ++ key ++ ". Max " ++ toString maxRequests
    ++ " calls every " ++ toString windowMs ++ "ms."

/-- consume(key) at the explicit instant now: retain timestamps at least
now - windowMs, fail when already at the limit, else append now. -/
def RateLimiter.consume (rl : RateLimiter) (key : String) (now : Int) :
    Except String RateLimiter :=
  let bucket := bucketOf rl key
  let windowStart := now - rl.windowMs
  let recentCalls := bucket.filter (fun t => windowStart ≤ t)
  if rl.maxRequests ≤ recentCalls.length then
    .error (rateLimitMsg key rl.maxRequests rl.windowMs)
  else
    .ok { rl with buckets := setAssoc rl.buckets key (recentCalls ++ [now]) }

/-! ### Cursor codec and paginated scroll (mcp-server entry file) -/

/-- A point identifier: string or number (Qdrant ids are unsigned). -/
inductive PointId where
  | str (s : String)
  | num (n : Nat)
deriving Repr, DecidableEq

/-- JS truthiness of a PointId value: 0 and the empty string are falsy. -/
def pointIdTruthy : PointId → Bool
  | .str s => !(s == "")
  | .num n => !(n == 0)

/-- The ScrollRequest shape (qdrant-client.ts); absent fields are none. -/
structure ScrollRequest where
  offset : Option PointId := none
  limit : Option Nat := none
  filter : Option Json := none
  with_payload : Option (Sum Bool (List String)) := none
  with_vector : Option (Sum Bool (List String)) := none
deriving Repr

/-- The cursor state: backend name, collection, and the next page request. -/
structure ScrollCursorState where
  cluster : String
  collection_name : String
  request : ScrollRequest
deriving Repr

/-- The JSON value of a point id. -/
def pointIdJson : PointId → Json
  | .str s => .str s
  | .num n => .num n

/-- The JSON value of a JS number holding a natural. -/
def natJson (n : Nat) : Json := Json.num (n : Int)

/-- The JSON value of a with_payload / with_vector selector. -/
def wpJson : Sum Bool (List String) → Json
  | .inl b => .bool b
  | .inr l => .arr (l.map Json.str)

/-- One object member, omitted when the JS property value is undefined. -/
def optField (key : String) (v : Option Json) : List (String × Json) :=
  match v with
  | some j => [(key, j)]
  | none => []

/-- The JSON object JSON.stringify sees for a ScrollRequest: literal keys in
declaration order, undefined-valued properties omitted. -/
def scrollRequestJson (r : ScrollRequest) : Json :=
  .obj (optField "offset" (r.offset.map pointIdJson)
    ++ optField "limit" (r.limit.map natJson)
    ++ optField "filter" r.filter
    ++ optField "with_payload" (r.with_payload.map wpJson)
    ++ optField "with_vector" (r.with_vector.map wpJson))

/-- The JSON object of a cursor state. -/
def cursorStateJson (st : ScrollCursorState) : Json :=
  .obj [("cluster", .str st.cluster), ("collection_name", .str st.collection_name),
    ("request", scrollRequestJson st.request)]

/-- encodeCursor: JSON.stringify, utf8 bytes, base64. -/
def encodeCursor (state : ScrollCursorState) : String :=
  b64Encode (utf8Encode (Json.stringify (cursorStateJson state)))

/-- decodeCursor: base64 to utf8 text, then JSON.parse; any parse failure is
the InvalidCursor error. The parsed value is returned as-is — the source
casts it to the cursor type without validating its shape. -/
def decodeCursor (cursor : String) : Except String Json :=
  match Json.parse (bytesToString (b64Decode cursor)) with
  | some j => .ok j
  | none => .error "Invalid cursor provided"

/-- The backend scroll response consumed by the handler. -/
structure ScrollResult where
  points : List Json := []
  next_page_offset : Option PointId := none

/-- The cluster-selector arguments every cluster-aware tool accepts. The
cluster_url is the component record of the already-parsed URL. -/
structure ClusterAwareArgs where
  cluster : Option String := none
  cluster_url : Option ParsedUrl := none
  cluster_api_key : Option String := none
deriving Repr

/-- The tail of runClusterTool: resolve the client for the (possibly
dynamically registered) cluster name and run the handler. The manager state
is returned alongside the outcome, since in the source the manager is
module-global and mutations survive a thrown handler error. -/
def runResolved (handler : QdrantClient → ClusterProfile → Except String α)
    (m1 : ClusterManager) (clusterName : Option String) :
    ClusterManager × Except String α :=
  match getClient m1 clusterName with
  | .error e => (m1, .error e)
  | .ok (m2, entry) => (m2, handler entry.client entry.profile)

/-- runClusterTool: register a dynamic cluster when cluster_url is supplied
(rejecting a simultaneous cluster name), resolve the client, run the
handler. -/
def runClusterTool (m : ClusterManager) (args : ClusterAwareArgs)
    (handler : QdrantClient → ClusterProfile → Except String α) :
    ClusterManager × Except String α :=
  match args.cluster_url with
  | some parsed =>
    if args.cluster.isSome then
      (m, .error "Cannot specify both cluster and cluster_url parameters")
    else
      runResolved handler (registerDynamicCluster m parsed args.cluster_api_key).1
        (some (registerDynamicCluster m parsed args.cluster_api_key).2)
  | none => runResolved handler m args.cluster

/-- The arguments of the paginated scroll tool. The cursor argument is the
already-decoded cursor state: decodeCursor performs no shape validation (see
the cursor-codec results), and the pagination protocol is modelled on the
well-shaped image of encodeCursor. -/
structure ScrollArgs where
  cursor : Option ScrollCursorState := none
  collection_name : Option String := none
  cluster : Option String := none
  cluster_url : Option ParsedUrl := none
  cluster_api_key : Option String := none
  offset : Option PointId := none
  limit : Option Nat := none
  filter : Option Json := none
  with_payload : Option (Sum Bool (List String)) := none
  with_vector : Option (Sum Bool (List String)) := none

/-- The payload handlePaginatedScroll wraps as jsonContent. -/
structure ScrollResponse where
  cluster : String
  collection_name : String
  points : List Json
  next_page_offset : Option PointId
  cursor : Option String

/-- The page request the handler uses: the cursor state request, or the
freshly supplied scroll parameters. -/
def scrollRequestFor (args : ScrollArgs) : ScrollRequest :=
  match args.cursor with
  | some st => st.request
  | none =>
    { offset := args.offset, limit := args.limit, filter := args.filter
      with_payload := args.with_payload, with_vector := args.with_vector }

/-- The cluster the handler resolves: the cursor state cluster, or the
freshly supplied cluster argument. -/
def scrollResolvedCluster (args : ScrollArgs) : Option String :=
  match args.cursor with
  | some st => some st.cluster
  | none => args.cluster

/-- The collection the handler reads: the cursor state collection, or the
freshly supplied collection argument. -/
def scrollTargetCollection (args : ScrollArgs) : Option String :=
  match args.cursor with
  | some st => some st.collection_name
  | none => args.collection_name

/-- handlePaginatedScroll, parameterized by the backend scroll call (the
external HTTP operation). The cursor state components take precedence over
the freshly supplied parameters; the cluster_url / cluster_api_key dynamic
selectors are not forwarded to runClusterTool. A new cursor is produced when
the backend-native next_page_offset is truthy, embedding the same cluster
and collection with the request offset replaced. -/
def handlePaginatedScroll (m : ClusterManager)
    (scroll : QdrantClient → String → ScrollRequest → Except String ScrollResult)
    (args : ScrollArgs) : ClusterManager × Except String ScrollResponse :=
  match scrollTargetCollection args with
  | none => (m, .error "collection_name is required when cursor is not provided")
  | some coll =>
    runClusterTool m { cluster := scrollResolvedCluster args } (fun client profile =>
      match scroll client coll (scrollRequestFor args) with
      | .error e => .error e
      | .ok response =>
        .ok { cluster := profile.name, collection_name := coll
              points := response.points, next_page_offset := response.next_page_offset
              cursor :=
                match response.next_page_offset with
                | some off =>
                  if pointIdTruthy off then
                    some (encodeCursor ⟨profile.name, coll,
                      { scrollRequestFor args with offset := some off }⟩)
                  else none
                | none => none })

/-- The initialize-response metadata (profile names, active name, limiter
configuration — no profile contents at all). -/
structure InitializeMeta where
  activeCluster : String
  availableClusters : List String
  rateLimit : RateLimitInfo
deriving Repr, DecidableEq

/-- The metadata the InitializeRequestSchema handler returns. -/
def initializeMeta (m : ClusterManager) (rl : RateLimiter) : InitializeMeta :=
  { activeCluster := m.activeCluster
    availableClusters := m.profiles.map (fun p => p.name)
    rateLimit := rl.describe }

/-- A rest of input that cannot extend a digit run. -/
def headNotDig : List Char → Bool
  | [] => true
  | c :: _ => !(isDig c)

mutual

/-- A fuel bound for parsing the serialization of a value. -/
def jsize : Json → Nat
  | .null => 1
  | .bool _ => 1
  | .num _ => 1
  | .str _ => 1
  | .arr items => lsize items + 1
  | .obj fields => fsize fields + 1

/-- See jsize. -/
def lsize : List Json → Nat
  | [] => 0
  | x :: rest => jsize x + lsize rest + 1

/-- See jsize. -/
def fsize : List (String × Json) → Nat
  | [] => 0
  | (_, v) :: rest => jsize v + fsize rest + 1

end

/-- Field access on a JSON object member list (first occurrence). -/
def getFieldJ (fields : List (String × Json)) (key : String) : Option Json :=
  (fields.find? (fun f => f.1 == key)).map (fun f => f.2)

/-- First profile name of a list (the constructed registry is never empty). -/
def firstNameOf : List ClusterProfile → String
  | [] => baseFallbackName
  | p :: _ => p.name

/-- Modelled from the spec (the C6 wording, read as a precedence chain): the
active profile is the caller-requested default name when present in the set,
otherwise the reserved fallback name when present, otherwise the first
profile in the set. -/
def claimActiveNameC6 (sanitized : List ClusterProfile) (requested : Option String) : String :=
  match requested with
  | some r =>
    if sanitized.any (fun p => p.name == r) then r
    else if sanitized.any (fun p => p.name == baseFallbackName) then baseFallbackName
    else firstNameOf sanitized
  | none =>
    if sanitized.any (fun p => p.name == baseFallbackName) then baseFallbackName
    else firstNameOf sanitized

/-- Modelled from the spec: the expected decoded-cursor shape — an object
carrying cluster, collection_name and request members. -/
def hasCursorShape (j : Json) : Bool :=
  match j with
  | .obj fields =>
    (fields.any (fun f => f.1 == "cluster"))
      && (fields.any (fun f => f.1 == "collection_name"))
      && (fields.any (fun f => f.1 == "request"))
  | _ => false

/-- A concrete base configuration, for witnesses. -/
def cfgEx : EnvConfig := ⟨"http://localhost:6335", "", "localhost", 3000⟩

/-- The cursor state of the spec example: offset p42, limit 64. -/
def cursorEx : ScrollCursorState :=
  ⟨"default", "docs", { offset := some (.str "p42"), limit := some 64 }⟩

/-- A profile list entry named a, for witnesses. -/
def profileA : ClusterProfile := { name := "a", url := "http://a.example" }

/-- A backend scroll stub whose next_page_offset is the falsy point id 0. -/
def scrollZero : QdrantClient → String → ScrollRequest → Except String ScrollResult :=
  fun _ _ _ => .ok { points := [], next_page_offset := some (.num 0) }

/-- The parsed form of the spec example URL with default port and slash. -/
def urlEx1 : ParsedUrl := ⟨"https:", "Host.example", "443", "/path/", ""⟩

/-- The parsed form of the normalized-equivalent spec example URL. -/
def urlEx2 : ParsedUrl := ⟨"https:", "host.example", "", "/path", ""⟩

/-- The member list of an object value (empty for non-objects). -/
def objFields : Json → List (String × Json)
  | .obj fields => fields
  | _ => []

/-- A cursor state naming a dynamically derived backend that is not
registered in a fresh process. -/
def dynCursorEx : ScrollCursorState :=
  ⟨"dynamic-aaaaaaaaaaaa", "docs", {}⟩

/-! ### Codec lemmas: decimal digits -/

theorem decDigit_isDig (d : Nat) (h : d < 10) : isDig (decDigit d) = true := by
  interval_cases d <;> decide

theorem decDigit_toNat (d : Nat) (h : d < 10) : (decDigit d).toNat = 48 + d := by
  interval_cases d <;> decide

theorem natCharsAux_ne_nil (fuel n : Nat) (h : n < fuel) : natCharsAux fuel n ≠ [] := by
  cases fuel with
  | zero => omega
  | succ f =>
    rw [natCharsAux]
    by_cases h10 : n < 10 <;> simp [h10]

theorem natCharsAux_digits (fuel n : Nat) (h : n < fuel) :
    ∀ c ∈ natCharsAux fuel n, isDig c = true := by
  induction fuel generalizing n with
  | zero => omega
  | succ f ih =>
    rw [natCharsAux]
    by_cases h10 : n < 10
    · simp only [if_pos h10, List.mem_singleton]
      rintro c rfl
      exact decDigit_isDig n h10
    · intro c hc
      rw [if_neg h10, List.mem_append, List.mem_singleton] at hc
      rcases hc with hc | rfl
      · exact ih (n / 10) (by omega) c hc
      · exact decDigit_isDig (n % 10) (by omega)

theorem charsNat_append_digit (ds : List Char) (c : Char) :
    charsNat (ds ++ [c]) = charsNat ds * 10 + (c.toNat - 48) := by
  simp [charsNat, List.foldl_append]

theorem charsNat_natCharsAux (fuel n : Nat) (h : n < fuel) :
    charsNat (natCharsAux fuel n) = n := by
  induction fuel generalizing n with
  | zero => omega
  | succ f ih =>
    rw [natCharsAux]
    by_cases h10 : n < 10
    · rw [if_pos h10]
      simp [charsNat, decDigit_toNat n h10]
    · rw [if_neg h10, charsNat_append_digit, ih (n / 10) (by omega),
        decDigit_toNat (n % 10) (by omega)]
      omega

theorem readDigits_stop (cs : List Char) (h : headNotDig cs = true) :
    readDigits cs = ([], cs) := by
  cases cs with
  | nil => rfl
  | cons c t =>
    simp only [headNotDig, Bool.not_eq_true'] at h
    simp [readDigits, h]

theorem readDigits_run (ds rest : List Char) (hds : ∀ c ∈ ds, isDig c = true)
    (hrest : headNotDig rest = true) : readDigits (ds ++ rest) = (ds, rest) := by
  induction ds with
  | nil => simpa using readDigits_stop rest hrest
  | cons c t ih =>
    simp [readDigits, hds c (by simp), ih (fun x hx => hds x (by simp [hx]))]

theorem readNat_natChars (n : Nat) (rest : List Char) (hrest : headNotDig rest = true) :
    readNat (natChars n ++ rest) = some (n, rest) := by
  have hne := natCharsAux_ne_nil (n + 1) n (by omega)
  have hval := charsNat_natCharsAux (n + 1) n (by omega)
  unfold natChars
  simp only [readNat]
  rw [readDigits_run _ _ (natCharsAux_digits (n + 1) n (by omega)) hrest]
  rcases hcs : natCharsAux (n + 1) n with _ | ⟨c, t⟩
  · exact absurd hcs hne
  · rw [hcs] at hval
    simp [hval]

theorem natChars_head (n : Nat) :
    ∃ c t, natChars n = c :: t ∧ isDig c = true := by
  rcases hcs : natChars n with _ | ⟨c, t⟩
  · exact absurd hcs (natCharsAux_ne_nil (n + 1) n (by omega))
  · exact ⟨c, t, rfl,
      natCharsAux_digits (n + 1) n (by omega) c (by rw [natChars] at hcs; simp [hcs])⟩

theorem isDig_ranges {c : Char} (h : isDig c = true) :
    48 ≤ c.toNat ∧ c.toNat ≤ 57 := by
  simp only [isDig, Bool.and_eq_true, decide_eq_true_eq] at h
  exact h

theorem readNum_intChars (i : Int) (rest : List Char) (hrest : headNotDig rest = true) :
    readNum (intChars i ++ rest) = some (Json.num i, rest) := by
  by_cases hneg : i < 0
  · rw [intChars, if_pos hneg, List.cons_append, readNum, readNat_natChars _ _ hrest]
    simp only [Option.map_some']
    have hi : -(i.natAbs : Int) = i := by omega
    rw [hi]
  · rw [intChars, if_neg hneg]
    obtain ⟨c, t, hct, hdig⟩ := natChars_head i.natAbs
    have hcm : ¬ c = '-' := by
      intro he
      rw [he] at hdig
      exact absurd hdig (by decide)
    rw [hct, List.cons_append]
    rw [show readNum (c :: (t ++ rest))
        = (readNat (c :: (t ++ rest))).map (fun p => (Json.num (p.1 : Int), p.2)) from by
      simp only [readNum]
      split
      · rename_i heq; rw [List.cons.injEq] at heq; exact absurd heq.1 hcm
      · rfl]
    rw [← List.cons_append, ← hct, readNat_natChars _ _ hrest]
    simp only [Option.map_some']
    have hi : (i.natAbs : Int) = i := by omega
    rw [hi]

/-! ### Codec lemmas: string escapes -/

theorem nibbleVal_hexDigit (d : Nat) (h : d < 16) : nibbleVal (hexDigit d) = some d := by
  interval_cases d <;> decide

theorem readStr_escChar (c : Char) (tail : List Char) :
    readStr (escChar c ++ tail) = (readStr tail).map (fun p => (c :: p.1, p.2)) := by
  unfold escChar
  split_ifs with h1 h2 h3 h4 h5 h6 h7 h8 <;>
    simp only [List.cons_append, List.nil_append]
  · subst h1; rw [readStr.eq_def]; simp [unesc]
  · subst h2; rw [readStr.eq_def]; simp [unesc]
  · subst h3; rw [readStr.eq_def]; simp [unesc]
  · subst h4; rw [readStr.eq_def]; simp [unesc]
  · subst h5; rw [readStr.eq_def]; simp [unesc]
  · subst h6; rw [readStr.eq_def]; simp [unesc]
  · subst h7; rw [readStr.eq_def]; simp [unesc]
  · have hd1 : nibbleVal (hexDigit (c.toNat / 16)) = some (c.toNat / 16) :=
      nibbleVal_hexDigit _ (by omega)
    have hd2 : nibbleVal (hexDigit (c.toNat % 16)) = some (c.toNat % 16) :=
      nibbleVal_hexDigit _ (by omega)
    have h0 : nibbleVal '0' = some 0 := by decide
    have hval : ((0 * 16 + 0) * 16 + c.toNat / 16) * 16 + c.toNat % 16 = c.toNat := by omega
    rw [readStr.eq_def]
    simp only [h0, hd1, hd2]
    rw [show ((0 * 16 + 0) * 16 + c.toNat / 16) * 16 + c.toNat % 16 = c.toNat from by omega,
      Char.ofNat_toNat]
    simp
  · rw [readStr.eq_def]
    simp [h1, h2]

theorem readStr_quote (cs tail : List Char) :
    readStr (cs.flatMap escChar ++ '"' :: tail) = some (cs, tail) := by
  induction cs with
  | nil => rw [List.flatMap_nil, List.nil_append, readStr.eq_def]; simp
  | cons c cs ih =>
    rw [List.flatMap_cons, List.append_assoc, readStr_escChar, ih]
    rfl

/-! ### Codec lemmas: the parser inverts the serializer -/

theorem jsize_pos (j : Json) : 1 ≤ jsize j := by
  cases j <;> simp [jsize]

theorem isDig_ne_special {c : Char} (h : isDig c = true) :
    ¬ c = 'n' ∧ ¬ c = 't' ∧ ¬ c = 'f' ∧ ¬ c = '"' ∧ ¬ c = '[' ∧ ¬ c = '{'
    ∧ ¬ c = ']' ∧ ¬ c = '}' ∧ ¬ c = ',' := by
  refine ⟨?_, ?_, ?_, ?_, ?_, ?_, ?_, ?_, ?_⟩ <;>
    (intro he; rw [he] at h; exact absurd h (by decide))

theorem readVal_default (fuel : Nat) (c : Char) (t : List Char) (hn : ¬ c = 'n')
    (ht : ¬ c = 't') (hf : ¬ c = 'f') (hq : ¬ c = '"') (hb : ¬ c = '[') (hc2 : ¬ c = '{') :
    readVal (fuel + 1) (c :: t) = if c = '-' ∨ isDig c then readNum (c :: t) else none := by
  simp only [readVal]
  split
  · rename_i heq; rw [List.cons.injEq] at heq; exact absurd heq.1 hn
  · rename_i heq; rw [List.cons.injEq] at heq; exact absurd heq.1 ht
  · rename_i heq; rw [List.cons.injEq] at heq; exact absurd heq.1 hf
  · rename_i heq; rw [List.cons.injEq] at heq; exact absurd heq.1 hq
  · rename_i heq; rw [List.cons.injEq] at heq; exact absurd heq.1 hb
  · rename_i heq; rw [List.cons.injEq] at heq; exact absurd heq.1 hc2
  · rename_i c2 t2 _ _ _ _ _ _ heq
    rw [List.cons.injEq] at heq
    rw [heq.1]
  · rename_i heq; cases heq

theorem readVal_bracket (fuel : Nat) (c : Char) (t : List Char) (hne : ¬ c = ']') :
    readVal (fuel + 1) ('[' :: c :: t)
      = (readItems fuel (c :: t)).map (fun p => (Json.arr p.1, p.2)) := by
  simp only [readVal]
  split
  · rename_i heq; rw [List.cons.injEq] at heq; exact absurd heq.1 hne
  · rfl

theorem readVal_brace (fuel : Nat) (c : Char) (t : List Char) (hne : ¬ c = '}') :
    readVal (fuel + 1) ('{' :: c :: t)
      = (readFields fuel (c :: t)).map (fun p => (Json.obj p.1, p.2)) := by
  simp only [readVal]
  split
  · rename_i heq; rw [List.cons.injEq] at heq; exact absurd heq.1 hne
  · rfl

theorem jsonChars_head (j : Json) :
    ∃ c t, jsonChars j = c :: t ∧ ¬ c = ']' ∧ ¬ c = '}' := by
  cases j with
  | null => exact ⟨'n', _, rfl, by decide, by decide⟩
  | bool b => cases b with
    | true => exact ⟨'t', _, rfl, by decide, by decide⟩
    | false => exact ⟨'f', _, rfl, by decide, by decide⟩
  | str s => exact ⟨'"', _, rfl, by decide, by decide⟩
  | arr items => exact ⟨'[', _, rfl, by decide, by decide⟩
  | obj fields => exact ⟨'{', _, rfl, by decide, by decide⟩
  | num i =>
    by_cases hneg : i < 0
    · exact ⟨'-', _, by rw [show jsonChars (.num i) = intChars i from rfl, intChars, if_pos hneg],
        by decide, by decide⟩
    · obtain ⟨c, t, hct, hdig⟩ := natChars_head i.natAbs
      obtain ⟨_, _, _, _, _, _, hrb, hcb, _⟩ := isDig_ne_special hdig
      exact ⟨c, t, by rw [show jsonChars (.num i) = intChars i from rfl, intChars, if_neg hneg,
        hct], hrb, hcb⟩

theorem arrChars_cons (x : Json) (xs : List Json) :
    ∃ t2, arrChars (x :: xs) = jsonChars x ++ t2 := by
  cases xs with
  | nil => exact ⟨[], by simp [arrChars]⟩
  | cons y ys => exact ⟨',' :: arrChars (y :: ys), by simp [arrChars]⟩

theorem objChars_quote (k : String) (v : Json) (fs : List (String × Json)) :
    ∃ t2, objChars ((k, v) :: fs) = '"' :: t2 := by
  cases fs with
  | nil =>
    refine ⟨(k.data.flatMap escChar ++ ['"']) ++ ':' :: jsonChars v, ?_⟩
    simp [objChars, quoteChars]
  | cons f2 fs2 =>
    refine ⟨(k.data.flatMap escChar ++ ['"'])
      ++ ':' :: (jsonChars v ++ ',' :: objChars (f2 :: fs2)), ?_⟩
    simp [objChars, quoteChars]

theorem readVal_jsonChars : ∀ fuel : Nat,
    (∀ (j : Json) (rest : List Char), jsize j < fuel → headNotDig rest = true →
      readVal fuel (jsonChars j ++ rest) = some (j, rest))
    ∧ (∀ (x : Json) (xs : List Json) (rest : List Char), lsize (x :: xs) < fuel →
      readItems fuel (arrChars (x :: xs) ++ ']' :: rest) = some (x :: xs, rest))
    ∧ (∀ (kv : String × Json) (fs : List (String × Json)) (rest : List Char),
      fsize (kv :: fs) < fuel →
      readFields fuel (objChars (kv :: fs) ++ '}' :: rest) = some (kv :: fs, rest)) := by
  intro fuel
  induction fuel with
  | zero =>
    refine ⟨fun j _ h _ => ?_, fun x xs _ h => ?_, fun kv fs _ h => ?_⟩
    · have := jsize_pos j; omega
    · simp [lsize] at h
    · obtain ⟨k, v⟩ := kv; simp [fsize] at h
  | succ fuel ih =>
    obtain ⟨ihv, ihl, ihf⟩ := ih
    refine ⟨?_, ?_, ?_⟩
    · intro j rest hsz hrest
      cases j with
      | null => simp [jsonChars, readVal]
      | bool b => cases b <;> simp [jsonChars, readVal]
      | num i =>
        rw [show jsonChars (.num i) = intChars i from rfl]
        by_cases hneg : i < 0
        · rw [intChars, if_pos hneg, List.cons_append,
            readVal_default fuel '-' _ (by decide) (by decide) (by decide) (by decide)
              (by decide) (by decide),
            if_pos (Or.inl rfl), ← List.cons_append,
            show '-' :: natChars i.natAbs = intChars i from by rw [intChars, if_pos hneg]]
          exact readNum_intChars i rest hrest
        · obtain ⟨c, t, hct, hdig⟩ := natChars_head i.natAbs
          obtain ⟨hn, ht, hf, hq, hb, hc2, _, _, _⟩ := isDig_ne_special hdig
          rw [intChars, if_neg hneg, hct, List.cons_append,
            readVal_default fuel c _ hn ht hf hq hb hc2,
            if_pos (Or.inr hdig), ← List.cons_append, ← hct,
            show natChars i.natAbs = intChars i from by rw [intChars, if_neg hneg]]
          exact readNum_intChars i rest hrest
      | str s =>
        rw [show jsonChars (.str s) ++ rest
          = '"' :: (s.data.flatMap escChar ++ ('"' :: rest)) from by
            simp [jsonChars, quoteChars]]
        simp only [readVal]
        rw [readStr_quote]
        rfl
      | arr items =>
        cases items with
        | nil => simp [jsonChars, arrChars, readVal]
        | cons x xs =>
          simp only [jsize, lsize] at hsz
          obtain ⟨c, t, hct, hrb, _⟩ := jsonChars_head x
          obtain ⟨t2, ht2⟩ := arrChars_cons x xs
          have harg : jsonChars (.arr (x :: xs)) ++ rest
              = '[' :: (arrChars (x :: xs) ++ ']' :: rest) := by
            simp [jsonChars]
          have hshape : arrChars (x :: xs) ++ ']' :: rest
              = c :: (t ++ t2 ++ ']' :: rest) := by
            rw [ht2, hct]; simp
          rw [harg, hshape, readVal_bracket fuel c _ hrb, ← hshape,
            ihl x xs rest (by simp only [lsize]; omega)]
          rfl
      | obj fields =>
        cases fields with
        | nil => simp [jsonChars, objChars, readVal]
        | cons kv fs =>
          simp only [jsize] at hsz
          have harg : jsonChars (.obj (kv :: fs)) ++ rest
              = '{' :: (objChars (kv :: fs) ++ '}' :: rest) := by
            simp [jsonChars]
          obtain ⟨k, v⟩ := kv
          obtain ⟨t2, ht2⟩ := objChars_quote k v fs
          have hshape : objChars ((k, v) :: fs) ++ '}' :: rest
              = '"' :: (t2 ++ '}' :: rest) := by
            rw [ht2]; simp
          rw [harg, hshape, readVal_brace fuel '"' _ (by decide), ← hshape,
            ihf (k, v) fs rest (by omega)]
          rfl
    · intro x xs rest hsz
      simp only [lsize] at hsz
      have hj := jsize_pos x
      cases xs with
      | nil =>
        have hv := ihv x (']' :: rest) (by omega) rfl
        rw [show arrChars [x] ++ ']' :: rest = jsonChars x ++ ']' :: rest from by
          simp [arrChars]]
        simp [readItems, hv]
      | cons y ys =>
        have hjy := jsize_pos y
        have hv := ihv x (',' :: (arrChars (y :: ys) ++ ']' :: rest)) (by omega) rfl
        have hrec := ihl y ys rest (by omega)
        have harg : arrChars (x :: y :: ys) ++ ']' :: rest
            = jsonChars x ++ (',' :: (arrChars (y :: ys) ++ ']' :: rest)) := by
          simp [arrChars]
        rw [harg]
        simp [readItems, hv, hrec]
    · intro kv fs rest hsz
      obtain ⟨k, v⟩ := kv
      simp only [fsize] at hsz
      have hjv := jsize_pos v
      cases fs with
      | nil =>
        have hv := ihv v ('}' :: rest) (by omega) rfl
        have harg : objChars [(k, v)] ++ '}' :: rest
            = '"' :: (k.data.flatMap escChar ++ ('"' :: (':' :: (jsonChars v
              ++ '}' :: rest)))) := by
          simp [objChars, quoteChars]
        rw [harg]
        simp [readFields, readStr_quote, hv]
      | cons f2 fs2 =>
        obtain ⟨k2, v2⟩ := f2
        have hv := ihv v (',' :: (objChars ((k2, v2) :: fs2) ++ '}' :: rest)) (by omega) rfl
        have hrec := ihf (k2, v2) fs2 rest (by omega)
        have harg : objChars ((k, v) :: (k2, v2) :: fs2) ++ '}' :: rest
            = '"' :: (k.data.flatMap escChar ++ ('"' :: (':' :: (jsonChars v
              ++ ',' :: (objChars ((k2, v2) :: fs2) ++ '}' :: rest))))) := by
          simp [objChars, quoteChars]
        rw [harg]
        simp [readFields, readStr_quote, hv, hrec]

mutual

/-- The fuel bound is within the serialized length, for every value. -/
theorem jsize_le : ∀ j : Json, jsize j ≤ (jsonChars j).length
  | .null => by simp [jsize, jsonChars]
  | .bool b => by cases b <;> simp [jsize, jsonChars]
  | .num i => by
    obtain ⟨c, t, hct, _⟩ := natChars_head i.natAbs
    rw [show jsonChars (.num i) = intChars i from rfl, jsize, intChars]
    split_ifs <;> rw [hct] <;> simp
  | .str s => by simp [jsize, jsonChars, quoteChars]
  | .arr [] => by simp [jsize, lsize, jsonChars, arrChars]
  | .arr (x :: xs) => by
    have h := lsize_le x xs
    simp only [jsize, jsonChars, List.length_cons, List.length_append]
    omega
  | .obj [] => by simp [jsize, fsize, jsonChars, objChars]
  | .obj (kv :: fs) => by
    have h := fsize_le kv fs
    simp only [jsize, jsonChars, List.length_cons, List.length_append]
    omega
termination_by j => sizeOf j

/-- See jsize_le. -/
theorem lsize_le : ∀ (x : Json) (xs : List Json),
    lsize (x :: xs) ≤ (arrChars (x :: xs)).length + 1
  | x, [] => by
    have h := jsize_le x
    simp only [lsize, arrChars]
    omega
  | x, y :: ys => by
    have h1 := jsize_le x
    have h2 := lsize_le y ys
    simp only [lsize, arrChars, List.length_append, List.length_cons]
    simp only [lsize] at h2
    omega
termination_by x xs => sizeOf x + sizeOf xs

/-- See jsize_le. -/
theorem fsize_le : ∀ (kv : String × Json) (fs : List (String × Json)),
    fsize (kv :: fs) ≤ (objChars (kv :: fs)).length + 1
  | (k, v), [] => by
    have h := jsize_le v
    simp only [fsize, objChars, quoteChars, List.length_append, List.length_cons]
    omega
  | (k, v), f2 :: fs2 => by
    have h1 := jsize_le v
    have h2 := fsize_le f2 fs2
    simp only [fsize, objChars, quoteChars, List.length_append, List.length_cons]
    simp only [fsize] at h2
    omega
termination_by kv fs => sizeOf kv + sizeOf fs

end

/-- JSON.parse inverts JSON.stringify on every value of the model. -/
theorem parse_stringify (j : Json) : Json.parse (Json.stringify j) = some j := by
  have h1 := (readVal_jsonChars ((jsonChars j).length + 1)).1 j []
    (by have := jsize_le j; omega) rfl
  rw [List.append_nil] at h1
  simp [Json.parse, Json.stringify, h1]

/-! ### Codec lemmas: utf8 and base64 round-trips -/

theorem utf8Char_length_pos (n : Nat) : 1 ≤ (utf8Char n).length := by
  unfold utf8Char
  split_ifs <;> simp

theorem char_valid_nat (c : Char) :
    c.toNat < 55296 ∨ 57344 ≤ c.toNat ∧ c.toNat < 1114112 := c.valid

theorem utf8Step (f : Nat) (c : Char) (bytes : List Nat) :
    utf8DecodeAux (f + 1) (utf8Char c.toNat ++ bytes) = c :: utf8DecodeAux f bytes := by
  have hval := char_valid_nat c
  unfold utf8Char
  split_ifs with h1 h2 h3
  · simp only [List.cons_append, List.nil_append]
    rw [utf8DecodeAux.eq_def]
    simp [h1, Char.ofNat_toNat]
  · simp only [List.cons_append, List.nil_append]
    rw [utf8DecodeAux.eq_def]
    have hb1 : ¬ (192 + c.toNat / 64 < 128) := by omega
    have hb2 : 192 ≤ 192 + c.toNat / 64 ∧ 192 + c.toNat / 64 < 224 := by omega
    have hcont : isCont (128 + c.toNat % 64) = true := by
      simp only [isCont, Bool.and_eq_true, decide_eq_true_eq]
      omega
    have hnn : (192 + c.toNat / 64 - 192) * 64 + (128 + c.toNat % 64 - 128) = c.toNat := by
      omega
    have hvcp : validCp 128 c.toNat = true := by
      simp only [validCp, Bool.and_eq_true, Bool.or_eq_true, decide_eq_true_eq]
      omega
    simp only [hb1, hb2, hcont, hnn, hvcp, if_neg, if_pos, if_false, if_true, and_true,
      true_and, Char.ofNat_toNat]
  · simp only [List.cons_append, List.nil_append]
    rw [utf8DecodeAux.eq_def]
    have hb1 : ¬ (224 + c.toNat / 4096 < 128) := by omega
    have hb2 : ¬ (192 ≤ 224 + c.toNat / 4096 ∧ 224 + c.toNat / 4096 < 224) := by omega
    have hb3 : 224 ≤ 224 + c.toNat / 4096 ∧ 224 + c.toNat / 4096 < 240 := by omega
    have hcont1 : isCont (128 + c.toNat / 64 % 64) = true := by
      simp only [isCont, Bool.and_eq_true, decide_eq_true_eq]
      omega
    have hcont2 : isCont (128 + c.toNat % 64) = true := by
      simp only [isCont, Bool.and_eq_true, decide_eq_true_eq]
      omega
    have hnn : (224 + c.toNat / 4096 - 224) * 4096 + (128 + c.toNat / 64 % 64 - 128) * 64
        + (128 + c.toNat % 64 - 128) = c.toNat := by omega
    have hvcp : validCp 2048 c.toNat = true := by
      simp only [validCp, Bool.and_eq_true, Bool.or_eq_true, decide_eq_true_eq]
      omega
    simp only [hb1, hb2, hb3, hcont1, hcont2, hnn, hvcp, if_neg, if_pos, if_false, if_true,
      and_true, true_and, Bool.and_self, Bool.and_true, Bool.true_and, Char.ofNat_toNat]
  · simp only [List.cons_append, List.nil_append]
    rw [utf8DecodeAux.eq_def]
    have hhi : c.toNat < 1114112 := by omega
    have hb1 : ¬ (240 + c.toNat / 262144 < 128) := by omega
    have hb2 : ¬ (192 ≤ 240 + c.toNat / 262144 ∧ 240 + c.toNat / 262144 < 224) := by omega
    have hb3 : ¬ (224 ≤ 240 + c.toNat / 262144 ∧ 240 + c.toNat / 262144 < 240) := by omega
    have hb4 : 240 ≤ 240 + c.toNat / 262144 ∧ 240 + c.toNat / 262144 < 248 := by omega
    have hcont1 : isCont (128 + c.toNat / 4096 % 64) = true := by
      simp only [isCont, Bool.and_eq_true, decide_eq_true_eq]
      omega
    have hcont2 : isCont (128 + c.toNat / 64 % 64) = true := by
      simp only [isCont, Bool.and_eq_true, decide_eq_true_eq]
      omega
    have hcont3 : isCont (128 + c.toNat % 64) = true := by
      simp only [isCont, Bool.and_eq_true, decide_eq_true_eq]
      omega
    have hnn : (240 + c.toNat / 262144 - 240) * 262144 + (128 + c.toNat / 4096 % 64 - 128)
        * 4096 + (128 + c.toNat / 64 % 64 - 128) * 64 + (128 + c.toNat % 64 - 128)
        = c.toNat := by omega
    have hvcp : validCp 65536 c.toNat = true := by
      simp only [validCp, Bool.and_eq_true, Bool.or_eq_true, decide_eq_true_eq]
      omega
    simp only [hb1, hb2, hb3, hb4, hcont1, hcont2, hcont3, hnn, hvcp, if_neg, if_pos,
      if_false, if_true, and_true, true_and, Bool.and_self, Bool.and_true, Bool.true_and,
      Char.ofNat_toNat]

theorem utf8DecodeAux_enc (cs : List Char) : ∀ fuel : Nat,
    (cs.flatMap (fun c => utf8Char c.toNat)).length ≤ fuel →
    utf8DecodeAux fuel (cs.flatMap (fun c => utf8Char c.toNat)) = cs := by
  induction cs with
  | nil => intro fuel _; cases fuel <;> rfl
  | cons c cs ih =>
    intro fuel h
    rw [List.flatMap_cons] at h ⊢
    have hpos := utf8Char_length_pos c.toNat
    cases fuel with
    | zero => rw [List.length_append] at h; omega
    | succ f =>
      rw [utf8Step f c _, ih f (by rw [List.length_append] at h; omega)]

/-- Buffer utf8 decoding inverts utf8 encoding on every string. -/
theorem utf8Decode_encode (s : String) : utf8Decode (utf8Encode s) = s.data := by
  exact utf8DecodeAux_enc s.data _ (le_refl _)

theorem b64Val_b64Char (n : Nat) (h : n < 64) : b64Val (b64Char n) = some n := by
  interval_cases n <;> decide

theorem b64Decode_encode (bytes : List Nat) (h : ∀ b ∈ bytes, b < 256) :
    b64Decode (b64Encode bytes) = bytes := by
  unfold b64Decode b64Encode
  show b64Sextets ((b64EncBytes bytes).filterMap b64Val) = bytes
  induction bytes using b64EncBytes.induct with
  | case1 => rfl
  | case2 a =>
    have ha : a < 256 := h a (by simp)
    rw [show b64EncBytes [a] = [b64Char (a / 4), b64Char (a % 4 * 16), '=', '='] from rfl]
    simp only [List.filterMap_cons, b64Val_b64Char (a / 4) (by omega),
      b64Val_b64Char (a % 4 * 16) (by omega),
      show b64Val '=' = none from by decide, List.filterMap_nil]
    simp only [b64Sextets, List.cons.injEq, and_true]
    omega
  | case3 a b =>
    have ha : a < 256 := h a (by simp)
    have hb : b < 256 := h b (by simp)
    rw [show b64EncBytes [a, b]
      = [b64Char (a / 4), b64Char (a % 4 * 16 + b / 16), b64Char (b % 16 * 4), '='] from rfl]
    simp only [List.filterMap_cons, b64Val_b64Char (a / 4) (by omega),
      b64Val_b64Char (a % 4 * 16 + b / 16) (by omega),
      b64Val_b64Char (b % 16 * 4) (by omega),
      show b64Val '=' = none from by decide, List.filterMap_nil]
    simp only [b64Sextets, List.cons.injEq, and_true]
    omega
  | case4 a b c rest ih =>
    have ha : a < 256 := h a (by simp)
    have hb : b < 256 := h b (by simp)
    have hc : c < 256 := h c (by simp)
    have hrest := ih (fun x hx => h x (by simp [hx]))
    rw [show b64EncBytes (a :: b :: c :: rest)
      = b64Char (a / 4) :: b64Char (a % 4 * 16 + b / 16) :: b64Char (b % 16 * 4 + c / 64)
        :: b64Char (c % 64) :: b64EncBytes rest from rfl]
    simp only [List.filterMap_cons, b64Val_b64Char (a / 4) (by omega),
      b64Val_b64Char (a % 4 * 16 + b / 16) (by omega),
      b64Val_b64Char (b % 16 * 4 + c / 64) (by omega),
      b64Val_b64Char (c % 64) (by omega)]
    rw [show ∀ s1 s2 s3 s4 X, b64Sextets (s1 :: s2 :: s3 :: s4 :: X)
      = (s1 * 4 + s2 / 16) :: (s2 % 16 * 16 + s3 / 4) :: (s3 % 4 * 64 + s4) :: b64Sextets X
      from fun _ _ _ _ _ => rfl, hrest]
    simp only [List.cons.injEq]
    refine ⟨by omega, by omega, by omega, trivial⟩

/-! ### Cursor codec: the decode-encode chain -/

theorem utf8Char_mem_lt (n : Nat) (hn : n < 1114112) : ∀ b ∈ utf8Char n, b < 256 := by
  unfold utf8Char
  split_ifs with h1 h2 h3 <;> intro b hb <;> simp at hb <;> omega

theorem utf8Encode_lt (s : String) : ∀ b ∈ utf8Encode s, b < 256 := by
  intro b hb
  unfold utf8Encode at hb
  rw [List.mem_flatMap] at hb
  obtain ⟨c, _, hbc⟩ := hb
  have hv := char_valid_nat c
  exact utf8Char_mem_lt c.toNat (by omega) b hbc

theorem decodeCursor_encodeCursor (st : ScrollCursorState) :
    decodeCursor (encodeCursor st) = .ok (cursorStateJson st) := by
  unfold decodeCursor encodeCursor bytesToString
  rw [b64Decode_encode _ (utf8Encode_lt _), utf8Decode_encode,
    show String.mk (Json.stringify (cursorStateJson st)).data
      = Json.stringify (cursorStateJson st) from rfl,
    parse_stringify]

theorem pointIdJson_inj : Function.Injective pointIdJson := by
  intro p q h
  cases p <;> cases q <;> simp_all [pointIdJson]

theorem wpJson_inj : Function.Injective wpJson := by
  intro x y h
  cases x <;> cases y <;> simp_all [wpJson]
  exact List.map_injective_iff.mpr (fun a b hab => Json.str.inj hab) h

theorem natJson_inj : Function.Injective natJson := by
  intro a b h
  simpa [natJson] using h

theorem srj_get_offset (r : ScrollRequest) :
    getFieldJ (objFields (scrollRequestJson r)) "offset" = r.offset.map pointIdJson := by
  obtain ⟨o, l, f, wp, wv⟩ := r
  cases o <;> cases l <;> cases f <;> cases wp <;> cases wv <;> rfl

theorem srj_get_limit (r : ScrollRequest) :
    getFieldJ (objFields (scrollRequestJson r)) "limit" = r.limit.map natJson := by
  obtain ⟨o, l, f, wp, wv⟩ := r
  cases o <;> cases l <;> cases f <;> cases wp <;> cases wv <;> rfl

theorem srj_get_filter (r : ScrollRequest) :
    getFieldJ (objFields (scrollRequestJson r)) "filter" = r.filter := by
  obtain ⟨o, l, f, wp, wv⟩ := r
  cases o <;> cases l <;> cases f <;> cases wp <;> cases wv <;> rfl

theorem srj_get_wp (r : ScrollRequest) :
    getFieldJ (objFields (scrollRequestJson r)) "with_payload"
      = r.with_payload.map wpJson := by
  obtain ⟨o, l, f, wp, wv⟩ := r
  cases o <;> cases l <;> cases f <;> cases wp <;> cases wv <;> rfl

theorem srj_get_wv (r : ScrollRequest) :
    getFieldJ (objFields (scrollRequestJson r)) "with_vector"
      = r.with_vector.map wpJson := by
  obtain ⟨o, l, f, wp, wv⟩ := r
  cases o <;> cases l <;> cases f <;> cases wp <;> cases wv <;> rfl

theorem scrollRequestJson_inj {r1 r2 : ScrollRequest}
    (h : scrollRequestJson r1 = scrollRequestJson r2) : r1 = r2 := by
  have ho := (srj_get_offset r1).symm.trans
    ((congrArg (fun j => getFieldJ (objFields j) "offset") h).trans (srj_get_offset r2))
  have hl := (srj_get_limit r1).symm.trans
    ((congrArg (fun j => getFieldJ (objFields j) "limit") h).trans (srj_get_limit r2))
  have hf := (srj_get_filter r1).symm.trans
    ((congrArg (fun j => getFieldJ (objFields j) "filter") h).trans (srj_get_filter r2))
  have hwp := (srj_get_wp r1).symm.trans
    ((congrArg (fun j => getFieldJ (objFields j) "with_payload") h).trans (srj_get_wp r2))
  have hwv := (srj_get_wv r1).symm.trans
    ((congrArg (fun j => getFieldJ (objFields j) "with_vector") h).trans (srj_get_wv r2))
  obtain ⟨o1, l1, f1, wp1, wv1⟩ := r1
  obtain ⟨o2, l2, f2, wp2, wv2⟩ := r2
  simp only at ho hl hf hwp hwv
  have h1 := Option.map_injective pointIdJson_inj ho
  have h2 := Option.map_injective natJson_inj hl
  have h3 := Option.map_injective wpJson_inj hwp
  have h4 := Option.map_injective wpJson_inj hwv
  simp_all

theorem cursorStateJson_inj {s1 s2 : ScrollCursorState}
    (h : cursorStateJson s1 = cursorStateJson s2) : s1 = s2 := by
  obtain ⟨c1, n1, r1⟩ := s1
  obtain ⟨c2, n2, r2⟩ := s2
  simp only [cursorStateJson, Json.obj.injEq, List.cons.injEq, Prod.mk.injEq,
    Json.str.injEq, and_true, true_and] at h
  obtain ⟨hc, hn, hr⟩ := h
  simp [hc, hn, scrollRequestJson_inj hr]

/-! ### Registry lemmas -/

theorem mk_profiles_def (cfg : EnvConfig) (ps : List ClusterProfile) (d : Option String) :
    (mkClusterManager cfg ps d).profiles =
      (if (normalizeProfiles ps).isEmpty then [createFallbackProfile cfg]
       else if (normalizeProfiles ps).any (fun p => p.name == baseFallbackName)
       then normalizeProfiles ps
       else normalizeProfiles ps ++ [createFallbackProfile cfg]) := rfl

theorem mk_active_def (cfg : EnvConfig) (ps : List ClusterProfile) (d : Option String) :
    (mkClusterManager cfg ps d).activeCluster =
      (if (mkClusterManager cfg ps d).profiles.any
          (fun p => p.name == d.getD baseFallbackName)
       then d.getD baseFallbackName
       else ((mkClusterManager cfg ps d).profiles.headD (createFallbackProfile cfg)).name) :=
  rfl

theorem mk_profiles_ne_nil (cfg : EnvConfig) (ps : List ClusterProfile) (d : Option String) :
    (mkClusterManager cfg ps d).profiles ≠ [] := by
  rw [mk_profiles_def]
  split_ifs with he ha
  · simp
  · intro h
    rw [h] at he
    exact he rfl
  · simp

theorem mk_has_default (cfg : EnvConfig) (ps : List ClusterProfile) (d : Option String) :
    (mkClusterManager cfg ps d).profiles.any (fun p => p.name == baseFallbackName) = true := by
  rw [mk_profiles_def]
  split_ifs with he ha
  · simp [createFallbackProfile]
  · exact ha
  · rw [List.any_append]
    simp [createFallbackProfile]

theorem findProfile_of_any {l : List ClusterProfile} {n : String}
    (h : l.any (fun p => p.name == n) = true) :
    ∃ p, findProfile l n = some p ∧ p.name = n := by
  obtain ⟨p, hp, hpn⟩ := List.any_eq_true.mp h
  have hs : (findProfile l n).isSome := by
    rw [findProfile, List.find?_isSome]
    exact ⟨p, hp, hpn⟩
  obtain ⟨q, hq⟩ := Option.isSome_iff_exists.mp hs
  refine ⟨q, hq, ?_⟩
  have := List.find?_some hq
  exact eq_of_beq this

theorem headD_mem_name (l : List ClusterProfile) (hl : l ≠ []) (dflt : ClusterProfile) :
    l.any (fun p => p.name == (l.headD dflt).name) = true := by
  cases l with
  | nil => exact absurd rfl hl
  | cons p t => simp

/-! ### Claim theorems and witnesses -/

/-- C4: for every cursor state (backend name, collection name, page request
with JSON-representable fields), decodeCursor applied to encodeCursor
returns exactly the JSON form of that state (no error), and the JSON form
determines the state uniquely, so the round trip reproduces a structurally
identical state. -/
theorem C4_cursor_roundtrip (s1 s2 : ScrollCursorState) :
    decodeCursor (encodeCursor s1) = .ok (cursorStateJson s1)
    ∧ (cursorStateJson s1 = cursorStateJson s2 → s1 = s2) :=
  ⟨decodeCursor_encodeCursor s1, fun h => cursorStateJson_inj h⟩

/-- C4 witness: the round trip at the spec example state (cluster default,
collection docs, offset p42, limit 64). -/
theorem C4_cursor_roundtrip_witness :
    decodeCursor (encodeCursor cursorEx) = .ok (cursorStateJson cursorEx)
    ∧ cursorEx = cursorEx :=
  ⟨(C4_cursor_roundtrip cursorEx cursorEx).1, (C4_cursor_roundtrip cursorEx cursorEx).2 rfl⟩

/-- C2 counterexample: the base64 text NDI= decodes to the JSON value 42,
which is not of the expected cursor shape, yet decodeCursor returns it as a
value instead of failing with InvalidCursor. -/
theorem C2_shape_counterexample :
    decodeCursor "NDI=" = .ok (Json.num 42) ∧ hasCursorShape (Json.num 42) = false :=
  ⟨rfl, rfl⟩

/-- C2 (amended): decodeCursor fails with the InvalidCursor error exactly
when the base64-decoded text is not parseable JSON — so corrupted or
truncated tokens fail rather than silently starting a fresh scan — but a
parseable payload of the wrong shape is returned unvalidated. -/
theorem C2_decode_failure (s : String) :
    (decodeCursor s = .error "Invalid cursor provided"
      ↔ Json.parse (bytesToString (b64Decode s)) = none)
    ∧ (∀ j, decodeCursor s = .ok j → Json.parse (bytesToString (b64Decode s)) = some j)
    ∧ decodeCursor "%%%%" = .error "Invalid cursor provided"
    ∧ decodeCursor ((encodeCursor cursorEx).take 8) = .error "Invalid cursor provided" := by
  refine ⟨?_, ?_, rfl, rfl⟩
  · cases hp : Json.parse (bytesToString (b64Decode s)) <;> simp [decodeCursor, hp]
  · intro j h
    unfold decodeCursor at h
    cases hp : Json.parse (bytesToString (b64Decode s)) with
    | none => rw [hp] at h; cases h
    | some j0 =>
      rw [hp] at h
      simp only [Except.ok.injEq] at h
      rw [h]

/-- C2 witness for the amended statement, at a well-formed input. -/
theorem C2_decode_failure_witness :
    decodeCursor "%%%%" = .error "Invalid cursor provided"
    ∧ (decodeCursor "NDI=" = .error "Invalid cursor provided"
      ↔ Json.parse (bytesToString (b64Decode "NDI=")) = none) :=
  ⟨(C2_decode_failure "NDI=").2.2.1, (C2_decode_failure "NDI=").1⟩

/-- C3: with windowMs 1000 and maxRequests 2, two consume calls at one
instant succeed; a third within 1000ms of the first fails with the
RateLimitExceeded message naming the key, the max and the window; a consume
more than 1000ms after the first succeeds again; and in general a consume is
admitted exactly when the retained timestamps within the window are strictly
below maxRequests. -/
theorem C3_sliding_window (k : String) (t0 t1 t2 : Int)
    (h01 : t1 - t0 ≤ 1000) (h02 : 1000 < t2 - t0) :
    RateLimiter.consume ⟨1000, 2, []⟩ k t0 = .ok ⟨1000, 2, [(k, [t0])]⟩
    ∧ RateLimiter.consume ⟨1000, 2, [(k, [t0])]⟩ k t0 = .ok ⟨1000, 2, [(k, [t0, t0])]⟩
    ∧ RateLimiter.consume ⟨1000, 2, [(k, [t0, t0])]⟩ k t1 = .error (rateLimitMsg k 2 1000)
    ∧ (∃ rl3, RateLimiter.consume ⟨1000, 2, [(k, [t0, t0])]⟩ k t2 = .ok rl3)
    ∧ (∀ (rl : RateLimiter) (key : String) (now : Int),
        (∃ rl2, rl.consume key now = .ok rl2) ↔
          ((bucketOf rl key).filter (fun t => now - rl.windowMs ≤ t)).length
            < rl.maxRequests) := by
  have hw0 : t0 ≤ t0 + 1000 := by omega
  have hw1 : t1 ≤ t0 + 1000 := by omega
  have hw2 : ¬ (t2 ≤ t0 + 1000) := by omega
  refine ⟨?_, ?_, ?_, ?_, ?_⟩
  · simp [RateLimiter.consume, bucketOf, setAssoc]
  · simp [RateLimiter.consume, bucketOf, setAssoc, hw0]
  · simp [RateLimiter.consume, bucketOf, setAssoc, hw1]
  · exact ⟨⟨1000, 2, [(k, [t2])]⟩, by simp [RateLimiter.consume, bucketOf, setAssoc, hw2]⟩
  · intro rl key now
    simp only [RateLimiter.consume]
    split
    · rename_i h
      constructor
      · rintro ⟨rl2, hrl⟩; cases hrl
      · intro hlt; omega
    · rename_i h
      exact ⟨fun _ => by omega, fun _ => ⟨_, rfl⟩⟩

/-- C3 witness: the scenario at key k with calls at 0, 500 and 1500 ms. -/
theorem C3_sliding_window_witness :
    RateLimiter.consume ⟨1000, 2, [("k", [0, 0])]⟩ "k" 500
      = .error (rateLimitMsg "k" 2 1000)
    ∧ (∃ rl3, RateLimiter.consume ⟨1000, 2, [("k", [0, 0])]⟩ "k" 1500 = .ok rl3) :=
  ⟨(C3_sliding_window "k" 0 500 1500 (by decide) (by decide)).2.2.1,
   (C3_sliding_window "k" 0 500 1500 (by decide) (by decide)).2.2.2.1⟩

/-- C5: for every construction input — any base configuration, any candidate
list (empty or without a profile named default), any requested default — a
profile named default exists in the map, the active name resolves to a
present profile, and getProfile with no argument succeeds. -/
theorem C5_fallback_invariant (cfg : EnvConfig) (ps : List ClusterProfile) (d : Option String) :
    (∃ p, findProfile (mkClusterManager cfg ps d).profiles baseFallbackName = some p
      ∧ p.name = baseFallbackName)
    ∧ (∃ p, findProfile (mkClusterManager cfg ps d).profiles
        (mkClusterManager cfg ps d).activeCluster = some p)
    ∧ (∃ p, getProfile (mkClusterManager cfg ps d) none = .ok p) := by
  have hdef := mk_has_default cfg ps d
  have hact : ∃ p, findProfile (mkClusterManager cfg ps d).profiles
      (mkClusterManager cfg ps d).activeCluster = some p := by
    rw [mk_active_def]
    split_ifs with hmem
    · obtain ⟨p, hp, _⟩ := findProfile_of_any hmem
      exact ⟨p, hp⟩
    · obtain ⟨p, hp, _⟩ := findProfile_of_any
        (headD_mem_name _ (mk_profiles_ne_nil cfg ps d) (createFallbackProfile cfg))
      exact ⟨p, hp⟩
  refine ⟨?_, hact, ?_⟩
  · obtain ⟨p, hp, hpn⟩ := findProfile_of_any hdef
    exact ⟨p, hp, hpn⟩
  · obtain ⟨p, hp⟩ := hact
    refine ⟨p, ?_⟩
    simp only [getProfile, Option.getD_none, hp]

/-- C5 witness: the empty candidate list with no requested default. -/
theorem C5_fallback_invariant_witness :
    ∃ p, getProfile (mkClusterManager cfgEx [] none) none = .ok p :=
  (C5_fallback_invariant cfgEx [] none).2.2

/-- C6 counterexample: with the single declared profile a and the requested
default name missing from the set, the constructor activates a (the first
profile), whereas the claim precedence chain — requested name if present,
else the reserved fallback name, else the first profile — picks default,
which is always present. -/
theorem C6_counterexample :
    (mkClusterManager cfgEx [profileA] (some "missing")).activeCluster = "a"
    ∧ claimActiveNameC6 (mkClusterManager cfgEx [profileA] (some "missing")).profiles
        (some "missing") = "default"
    ∧ ¬ ((mkClusterManager cfgEx [profileA] (some "missing")).activeCluster
        = claimActiveNameC6 (mkClusterManager cfgEx [profileA] (some "missing")).profiles
            (some "missing")) :=
  ⟨rfl, rfl, by decide⟩

/-- C6 (amended): the active profile chosen at construction is the requested
name (the caller-supplied default, or the reserved fallback name when none
was supplied) when that name is present in the final profile set, and
otherwise the first profile of the set; in particular, with no caller
request the active profile is always the reserved fallback name. -/
theorem C6_active_selection (cfg : EnvConfig) (ps : List ClusterProfile) (d : Option String) :
    (mkClusterManager cfg ps d).activeCluster =
      (if (mkClusterManager cfg ps d).profiles.any
          (fun p => p.name == d.getD baseFallbackName)
       then d.getD baseFallbackName
       else firstNameOf (mkClusterManager cfg ps d).profiles)
    ∧ (mkClusterManager cfg ps none).activeCluster = baseFallbackName := by
  constructor
  · rw [mk_active_def]
    rcases hl : (mkClusterManager cfg ps d).profiles with _ | ⟨p, t⟩
    · exact absurd hl (mk_profiles_ne_nil cfg ps d)
    · simp [firstNameOf]
  · rw [mk_active_def, Option.getD_none, if_pos (mk_has_default cfg ps none)]

/-- C6 amended witness at a concrete construction. -/
theorem C6_active_selection_witness :
    (mkClusterManager cfgEx [profileA] none).activeCluster = baseFallbackName :=
  (C6_active_selection cfgEx [profileA] none).2

/-- C9: introspection never exposes the raw credential: two profiles
identical except for their non-empty apiKey values sanitize to identical
outputs (switch_cluster and the cluster resource expose sanitizeProfile, a
record without an apiKey field), and the initialize metadata depends only on
the profile names, the active name and the limiter configuration. -/
theorem C9_no_credential_leak (p : ClusterProfile) (k1 k2 : String)
    (h1 : ¬ k1 = "") (h2 : ¬ k2 = "") :
    sanitizeProfile { p with apiKey := some k1 }
      = sanitizeProfile { p with apiKey := some k2 }
    ∧ (∀ (m1 m2 : ClusterManager) (rl : RateLimiter),
        m1.profiles.map (fun q => q.name) = m2.profiles.map (fun q => q.name) →
        m1.activeCluster = m2.activeCluster →
        initializeMeta m1 rl = initializeMeta m2 rl) := by
  constructor
  · simp [sanitizeProfile, h1, h2]
  · intro m1 m2 rl hn ha
    simp [initializeMeta, hn, ha]

/-- C9 witness with two distinct non-empty credentials. -/
theorem C9_no_credential_leak_witness :
    sanitizeProfile { profileA with apiKey := some "secretA" }
      = sanitizeProfile { profileA with apiKey := some "secretB" } :=
  (C9_no_credential_leak profileA "secretA" "secretB" (by decide) (by decide)).1

/-- C1: for parsed URLs with the same normalized form, registering the first
with credential credA and then the second with any credential credB yields
the identical derived name — the literal dynamic tag plus the first 12 hex
digits of the SHA-256 of the normalized URL — both times; the second call
inserts no profile (the manager is returned unchanged), and the stored
credential remains credA. The name is assumed fresh, as after the first
registration of this backend. -/
theorem C1_dynamic_idempotent (m : ClusterManager) (u1 u2 : ParsedUrl)
    (credA : String) (credB : Option String)
    (hnorm : normalizeUrl u1 = normalizeUrl u2)
    (hfresh : findProfile m.profiles (dynClusterName (normalizeUrl u1)) = none) :
    ∃ m1, registerDynamicCluster m u1 (some credA) = (m1, dynClusterName (normalizeUrl u1))
    ∧ registerDynamicCluster m1 u2 credB = (m1, dynClusterName (normalizeUrl u1))
    ∧ m1.profiles = m.profiles
        ++ [{ name := dynClusterName (normalizeUrl u1), url := normalizeUrl u1,
              apiKey := some credA,
              description := some ("Dynamic cluster: " ++ normalizeUrl u1),
              labels := some ["dynamic"] }]
    ∧ (findProfile m1.profiles (dynClusterName (normalizeUrl u1))).map (fun p => p.apiKey)
        = some (some credA)
    ∧ dynClusterName (normalizeUrl u1)
        = "dynamic-" ++ (sha256Hex (normalizeUrl u1)).take 12 := by
  have hany : m.profiles.any (fun p => p.name == dynClusterName (normalizeUrl u1)) = false := by
    rw [List.any_eq_false]
    intro p hp
    exact List.find?_eq_none.mp hfresh p hp
  refine ⟨{ m with profiles := m.profiles
    ++ [{ name := dynClusterName (normalizeUrl u1), url := normalizeUrl u1,
          apiKey := some credA,
          description := some ("Dynamic cluster: " ++ normalizeUrl u1),
          labels := some ["dynamic"] }] }, ?_, ?_, rfl, ?_, rfl⟩
  · simp [registerDynamicCluster, hany]
  · rw [registerDynamicCluster, ← hnorm]
    rw [if_pos (by rw [List.any_append]; simp)]
  · have hf2 : List.find? (fun p => p.name == dynClusterName (normalizeUrl u1))
        m.profiles = none := hfresh
    rw [findProfile, List.find?_append, hf2]
    simp

/-- C1 witness: the spec example pair — upper-case host with default port
and trailing slash against the lower-case bare form — on a fresh registry. -/
theorem C1_dynamic_idempotent_witness :
    normalizeUrl urlEx1 = normalizeUrl urlEx2
    ∧ ∃ m1, registerDynamicCluster (mkClusterManager cfgEx [] none) urlEx1 (some "keyA")
        = (m1, dynClusterName (normalizeUrl urlEx1))
      ∧ registerDynamicCluster m1 urlEx2 (some "keyB")
        = (m1, dynClusterName (normalizeUrl urlEx1))
      ∧ m1.profiles = (mkClusterManager cfgEx [] none).profiles
        ++ [{ name := dynClusterName (normalizeUrl urlEx1), url := normalizeUrl urlEx1,
              apiKey := some "keyA",
              description := some ("Dynamic cluster: " ++ normalizeUrl urlEx1),
              labels := some ["dynamic"] }]
      ∧ (findProfile m1.profiles (dynClusterName (normalizeUrl urlEx1))).map
          (fun p => p.apiKey) = some (some "keyA")
      ∧ dynClusterName (normalizeUrl urlEx1)
        = "dynamic-" ++ (sha256Hex (normalizeUrl urlEx1)).take 12 :=
  ⟨by decide,
   C1_dynamic_idempotent (mkClusterManager cfgEx [] none) urlEx1 urlEx2 "keyA"
     (some "keyB") (by decide) (by decide)⟩

/-! ### Handler lemmas -/

theorem getProfile_some_name {m : ClusterManager} {nm : String} {p : ClusterProfile}
    (h : getProfile m (some nm) = .ok p) : p.name = nm := by
  unfold getProfile at h
  simp only [Option.getD_some] at h
  split at h
  · rename_i p0 heq
    simp only [Except.ok.injEq] at h
    rw [← h]
    have heq2 : List.find? (fun p => p.name == nm) m.profiles = some p0 := heq
    have hb := List.find?_some heq2
    exact eq_of_beq hb
  · cases h

theorem getClient_ok_profiles {m : ClusterManager} {n : Option String}
    {m2 : ClusterManager} {e : ClusterClientEntry} (h : getClient m n = .ok (m2, e)) :
    m2.profiles = m.profiles := by
  unfold getClient at h
  split at h
  · cases h
  · split at h
    · simp only [Except.ok.injEq, Prod.mk.injEq] at h
      rw [← h.1]
    · simp only [Except.ok.injEq, Prod.mk.injEq] at h
      rw [← h.1]

theorem getClient_ok_name {m : ClusterManager} {nm : String}
    {m2 : ClusterManager} {e : ClusterClientEntry}
    (hwf : ∀ pr ∈ m.clients, pr.2.profile.name = pr.1)
    (h : getClient m (some nm) = .ok (m2, e)) : e.profile.name = nm := by
  unfold getClient at h
  split at h
  · cases h
  · rename_i profile hp
    have hpn : profile.name = nm := getProfile_some_name hp
    split at h
    · rename_i pr hpr
      simp only [Except.ok.injEq, Prod.mk.injEq] at h
      have hmem := List.mem_of_find?_eq_some hpr
      have hb := List.find?_some hpr
      have hkey : pr.1 = profile.name := eq_of_beq hb
      rw [← h.2, hwf pr hmem, hkey, hpn]
    · simp only [Except.ok.injEq, Prod.mk.injEq] at h
      rw [← h.2]
      exact hpn

theorem runResolved_profiles {α : Type}
    (handler : QdrantClient → ClusterProfile → Except String α)
    (m1 : ClusterManager) (n : Option String) :
    (runResolved handler m1 n).1.profiles = m1.profiles := by
  unfold runResolved
  split
  · rfl
  · rename_i m3 e hg
    exact getClient_ok_profiles hg

theorem runClusterTool_nourl {α : Type} (m : ClusterManager) (args : ClusterAwareArgs)
    (handler : QdrantClient → ClusterProfile → Except String α)
    (hu : args.cluster_url = none) :
    runClusterTool m args handler = runResolved handler m args.cluster := by
  unfold runClusterTool
  rw [hu]

theorem runClusterTool_ok {α : Type} {m : ClusterManager} {args : ClusterAwareArgs}
    {handler : QdrantClient → ClusterProfile → Except String α}
    {m2 : ClusterManager} {a : α}
    (h : runClusterTool m args handler = (m2, .ok a)) :
    ∃ client profile, handler client profile = .ok a := by
  unfold runClusterTool runResolved at h
  split at h
  · split at h
    · simp at h
    · split at h
      · simp at h
      · rename_i m3 e _
        simp only [Prod.mk.injEq] at h
        exact ⟨e.client, e.profile, h.2⟩
  · split at h
    · simp at h
    · rename_i m3 e hg
      simp only [Prod.mk.injEq] at h
      exact ⟨e.client, e.profile, h.2⟩

theorem runClusterTool_named {α : Type} {m : ClusterManager} {nm : String}
    {handler : QdrantClient → ClusterProfile → Except String α}
    {m2 : ClusterManager} {a : α}
    (hwf : ∀ pr ∈ m.clients, pr.2.profile.name = pr.1)
    (h : runClusterTool m { cluster := some nm } handler = (m2, .ok a)) :
    ∃ client profile, profile.name = nm ∧ handler client profile = .ok a
      ∧ m2.profiles = m.profiles := by
  rw [runClusterTool_nourl m _ handler rfl] at h
  unfold runResolved at h
  split at h
  · simp at h
  · rename_i m3 e hg
    simp only [Prod.mk.injEq] at h
    exact ⟨e.client, e.profile, getClient_ok_name hwf hg,
      h.2, by rw [← h.1]; exact getClient_ok_profiles hg⟩

theorem runClusterTool_profiles_nourl {α : Type} (m : ClusterManager)
    (args : ClusterAwareArgs) (handler : QdrantClient → ClusterProfile → Except String α)
    (hu : args.cluster_url = none) :
    (runClusterTool m args handler).1.profiles = m.profiles := by
  rw [runClusterTool_nourl m args handler hu, runResolved_profiles]

theorem registerDynamicCluster_registered (m : ClusterManager) (pu : ParsedUrl)
    (key : Option String) :
    (registerDynamicCluster m pu key).1.profiles.any
      (fun p => p.name == dynClusterName (normalizeUrl pu)) = true := by
  unfold registerDynamicCluster
  simp only
  split
  · rename_i h
    exact h
  · rw [List.any_append]
    simp

theorem handlePaginatedScroll_profiles (m : ClusterManager)
    (scroll : QdrantClient → String → ScrollRequest → Except String ScrollResult)
    (args : ScrollArgs) :
    (handlePaginatedScroll m scroll args).1.profiles = m.profiles := by
  unfold handlePaginatedScroll
  split
  · rfl
  · exact runClusterTool_profiles_nourl m _ _ rfl

/-- C7 counterexample: a backend page whose native next_page_offset is the
point id 0 yields a response carrying next_page_offset but no cursor — the
cursor is produced on JS truthiness of the offset, not on its presence, so
cursor-present iff next_page_offset-present fails. -/
theorem C7_counterexample :
    (handlePaginatedScroll (mkClusterManager cfgEx [] none) scrollZero
        { collection_name := some "docs" }).2
      = .ok { cluster := "default", collection_name := "docs", points := [],
              next_page_offset := some (.num 0), cursor := none }
    ∧ (some (PointId.num 0)).isSome = true
    ∧ (none : Option String).isSome = false :=
  ⟨rfl, rfl, rfl⟩

/-- C7 (amended): a paginated-scroll response carries a cursor iff it
carries a truthy backend-native next_page_offset (a 0 or empty-string offset
yields none); when produced, the cursor embeds the response cluster and
collection with the page request offset replaced by that next_page_offset;
and with no next_page_offset no cursor is returned. -/
theorem C7_cursor_production (m : ClusterManager)
    (scroll : QdrantClient → String → ScrollRequest → Except String ScrollResult)
    (args : ScrollArgs) (m2 : ClusterManager) (resp : ScrollResponse)
    (hok : handlePaginatedScroll m scroll args = (m2, .ok resp)) :
    (resp.cursor.isSome ↔ ∃ off, resp.next_page_offset = some off ∧ pointIdTruthy off = true)
    ∧ (∀ off, resp.next_page_offset = some off → pointIdTruthy off = true →
        resp.cursor = some (encodeCursor ⟨resp.cluster, resp.collection_name,
          { scrollRequestFor args with offset := some off }⟩))
    ∧ (resp.next_page_offset = none → resp.cursor = none) := by
  unfold handlePaginatedScroll at hok
  split at hok
  · simp at hok
  · rename_i coll hcoll
    obtain ⟨client, profile, hh⟩ := runClusterTool_ok hok
    simp only at hh
    split at hh
    · cases hh
    · rename_i response hs
      simp only [Except.ok.injEq] at hh
      rw [← hh]
      cases hnpo : response.next_page_offset with
      | none => simp [hnpo]
      | some off =>
        by_cases htr : pointIdTruthy off = true
        · simp [hnpo, htr]
        · simp [hnpo, htr]

/-- C7 amended witness: a one-page scan (no next_page_offset) at a concrete
registry produces no cursor. -/
theorem C7_cursor_production_witness :
    ∃ m2 resp, handlePaginatedScroll (mkClusterManager cfgEx [] none)
        (fun _ _ _ => .ok { points := [] }) { collection_name := some "docs" }
        = (m2, .ok resp)
      ∧ resp.next_page_offset = none
      ∧ resp.cursor = none := by
  refine ⟨_, _, rfl, rfl, ?_⟩
  exact (C7_cursor_production (mkClusterManager cfgEx [] none)
    (fun _ _ _ => .ok { points := [] }) { collection_name := some "docs" } _ _ rfl).2.2 rfl

/-- C8: resuming a scan whose cursor names a backend absent from the
registry — in particular a dynamically registered backend of an earlier
invocation, which has no stable registered name — fails fast with the
UnknownCluster error listing the known names, and a successful resume always
reads from exactly the backend named in the cursor (under the cache
invariant that cached client entries are keyed by their profile name, which
getClient maintains). -/
theorem C8_dynamic_cursor_resume (m : ClusterManager)
    (scroll : QdrantClient → String → ScrollRequest → Except String ScrollResult)
    (args : ScrollArgs) (st : ScrollCursorState)
    (hwf : ∀ pr ∈ m.clients, pr.2.profile.name = pr.1)
    (hc : args.cursor = some st) :
    (findProfile m.profiles st.cluster = none →
      handlePaginatedScroll m scroll args
        = (m, .error (unknownClusterMsg st.cluster (m.profiles.map (fun p => p.name)))))
    ∧ (∀ m2 resp, handlePaginatedScroll m scroll args = (m2, .ok resp) →
        resp.cluster = st.cluster) := by
  have htc : scrollTargetCollection args = some st.collection_name := by
    simp [scrollTargetCollection, hc]
  have hrc : scrollResolvedCluster args = some st.cluster := by
    simp [scrollResolvedCluster, hc]
  constructor
  · intro habsent
    have hgc : getClient m (some st.cluster)
        = .error (unknownClusterMsg st.cluster (m.profiles.map (fun p => p.name))) := by
      unfold getClient getProfile
      simp [habsent]
    unfold handlePaginatedScroll
    split
    · rename_i heq
      rw [htc] at heq
      cases heq
    · rename_i coll heq
      rw [htc] at heq
      injection heq with h2
      subst h2
      rw [runClusterTool_nourl m _ _ rfl]
      show runResolved _ m (scrollResolvedCluster args) = _
      rw [hrc]
      unfold runResolved
      rw [hgc]
  · intro m2 resp h
    unfold handlePaginatedScroll at h
    split at h
    · rename_i heq
      rw [htc] at heq
      cases heq
    · rename_i coll heq
      rw [hrc] at h
      obtain ⟨client, profile, hname, hh, _⟩ := runClusterTool_named hwf h
      simp only at hh
      split at hh
      · cases hh
      · simp only [Except.ok.injEq] at hh
        rw [← hh]
        exact hname

/-- C8 witness: a fresh registry cannot resume a cursor naming a dynamic
backend; the call fails with the UnknownCluster error listing the knowns. -/
theorem C8_dynamic_cursor_resume_witness :
    handlePaginatedScroll (mkClusterManager cfgEx [] none) scrollZero
        { cursor := some dynCursorEx }
      = (mkClusterManager cfgEx [] none,
         .error (unknownClusterMsg dynCursorEx.cluster
           ((mkClusterManager cfgEx [] none).profiles.map (fun p => p.name)))) :=
  (C8_dynamic_cursor_resume (mkClusterManager cfgEx [] none) scrollZero
    { cursor := some dynCursorEx } dynCursorEx (by simp [mkClusterManager]) rfl).1 rfl

/-- C10: the paginated scroll handler ignores the dynamic selector fields —
its outcome is unchanged by any cluster_url / cluster_api_key arguments and
it never adds a profile to the registry — whereas the shared dispatch of
every other cluster-aware tool, given a cluster_url and no cluster name,
does register the dynamically derived profile before dispatch. -/
theorem C10_scroll_ignores_dynamic_selector (m : ClusterManager)
    (scroll : QdrantClient → String → ScrollRequest → Except String ScrollResult)
    (args : ScrollArgs) (u : Option ParsedUrl) (k : Option String) :
    handlePaginatedScroll m scroll { args with cluster_url := u, cluster_api_key := k }
      = handlePaginatedScroll m scroll args
    ∧ (handlePaginatedScroll m scroll args).1.profiles = m.profiles
    ∧ (∀ (margs : ClusterAwareArgs) (pu : ParsedUrl)
        (handler : QdrantClient → ClusterProfile → Except String Unit),
        margs.cluster = none → margs.cluster_url = some pu →
        (runClusterTool m margs handler).1.profiles.any
          (fun p => p.name == dynClusterName (normalizeUrl pu)) = true) := by
  refine ⟨rfl, handlePaginatedScroll_profiles m scroll args, ?_⟩
  intro margs pu handler hcl hurl
  unfold runClusterTool
  rw [hurl]
  rw [show margs.cluster.isSome = false from by rw [hcl]; rfl]
  simp only [Bool.false_eq_true, if_false]
  rw [runResolved_profiles]
  exact registerDynamicCluster_registered m pu margs.cluster_api_key

/-- C10 witness: a concrete dynamic registration through the shared
dispatch, and the scroll handler result unchanged by a dynamic selector. -/
theorem C10_scroll_ignores_dynamic_selector_witness :
    (runClusterTool (mkClusterManager cfgEx [] none)
        { cluster := none, cluster_url := some urlEx2, cluster_api_key := none }
        (fun _ _ => (.ok () : Except String Unit))).1.profiles.any
      (fun p => p.name == dynClusterName (normalizeUrl urlEx2)) = true :=
  (C10_scroll_ignores_dynamic_selector (mkClusterManager cfgEx [] none) scrollZero
    {} (some urlEx2) none).2.2
    { cluster := none, cluster_url := some urlEx2, cluster_api_key := none }
    urlEx2 (fun _ _ => (.ok () : Except String Unit)) rfl rfl

end Qmcp
